import Mathlib

/-!
Verification of the AI decision/navigation core of the car-battle-bots
repository (pursuit/evasion simulation: FSM, cover-point search, ray-marched
line of sight, A* pathfinding, linear prediction, steering blend).

The geometry layer (`utils.py`, `ai/fsm.py`, steering) computes with Python
floats; it is embedded over `ℝ` (the standard idealisation), with classical
decidability for the branch conditions.  The pathfinding and prediction
layers only ever branch on values of the form `q + √n` with `q` rational and
`n` a natural number, so they are embedded executably: priorities are
represented exactly as such pairs with a decidable order (proved to agree
with the real order).
-/

namespace CarBots

/-! ## Constants (constants.py) -/

def SCREEN_WIDTH : ℝ := 1000
def SCREEN_HEIGHT : ℝ := 800
def GRID_SIZE : ℚ := 20
def CAR_WIDTH : ℝ := 30
def CAR_HEIGHT : ℝ := 40
def SAFE_DISTANCE : ℝ := 100
def HIDE_TRIGGER_DISTANCE : ℝ := 400
def VERY_CLOSE_DISTANCE : ℝ := 80
def BUFFER_BEHIND_OBSTACLE : ℝ := CAR_HEIGHT * 1.5
def MAX_HIDE_SEARCH_OBSTACLES : ℕ := 5
def OBSTACLE_SORT_WEIGHT_DIST : ℝ := 0.6
def OBSTACLE_SORT_WEIGHT_ANGLE : ℝ := 0.4

noncomputable section

open Classical

/-! ## Geometry utilities (src/Your Choice/utils.py) -/

/-- utils.distance: Euclidean distance between two points. -/
def distance (x1 y1 x2 y2 : ℝ) : ℝ :=
  Real.sqrt ((x2 - x1) ^ 2 + (y2 - y1) ^ 2)

/-- utils.normalize_vector (Your Choice variant): zero vector below the
0.0001 magnitude threshold, otherwise the unit vector. -/
def normalize_vector (x y : ℝ) : ℝ × ℝ :=
  let mag := distance 0 0 x y
  if mag < 0.0001 then (0, 0) else (x / mag, y / mag)

/-- Hide/utils.normalize_vector: divides by max(0.01, magnitude); it never
returns a zero vector for a non-zero input. -/
def hide_normalize_vector (x y : ℝ) : ℝ × ℝ :=
  let mag := max 0.01 (distance 0 0 x y)
  (x / mag, y / mag)

/-- An obstacle (obstacle.py): axis-aligned square with integer top-left
corner and integer size, plus its pygame rectangle. -/
structure Obstacle where
  x : ℤ
  y : ℤ
  size : ℕ

namespace Obstacle

/-- rect.centerx and rect.centery: pygame Rect centers, via integer floor
division of the size. -/
def center (o : Obstacle) : ℤ × ℤ := (o.x + (o.size / 2 : ℕ), o.y + (o.size / 2 : ℕ))

/-- pygame Rect.collidepoint: a point is inside when left ≤ px < right and
top ≤ py < bottom (right/bottom edges excluded). -/
def collidepoint (o : Obstacle) (px py : ℝ) : Bool :=
  decide ((o.x : ℝ) ≤ px ∧ px < o.x + o.size ∧ (o.y : ℝ) ≤ py ∧ py < o.y + o.size)

end Obstacle

/-- Number of ray-march iterations of utils.check_line_of_sight: the loop
runs over current_dist = 5, 10, ... while current_dist < line_dist, i.e.
⌈line_dist/5⌉ - 1 iterations. -/
def losCount (d : ℝ) : ℕ := ⌈d / 5⌉₊ - 1

/-- The k-th sampled point along the ray (k = 0 is at parameter 5·1). -/
def losSample (s : ℝ × ℝ) (nd : ℝ × ℝ) (k : ℕ) : ℝ × ℝ :=
  (s.1 + nd.1 * (5 * (k + 1)), s.2 + nd.2 * (5 * (k + 1)))

/-- utils.check_line_of_sight: marches from start towards end in 5-unit
steps (starting one full step away, stopping strictly before the segment
length), returning true iff some sampled point lies inside some obstacle.
Segments shorter than 1.0 are declared clear outright. -/
def check_line_of_sight (s e : ℝ × ℝ) (obstacles : List Obstacle) : Bool :=
  let dx := e.1 - s.1
  let dy := e.2 - s.2
  let lineDist := distance s.1 s.2 e.1 e.2
  if lineDist < 1.0 then false
  else
    let nd := normalize_vector dx dy
    (List.range (losCount lineDist)).any fun k =>
      obstacles.any fun o => o.collidepoint (losSample s nd k).1 (losSample s nd k).2

end

/-! ## Basic facts about the geometry layer -/

theorem distance_zero (x y : ℝ) : distance 0 0 x y = Real.sqrt (x ^ 2 + y ^ 2) := by
  simp [distance]

theorem distance_nonneg (x1 y1 x2 y2 : ℝ) : 0 ≤ distance x1 y1 x2 y2 :=
  Real.sqrt_nonneg _

theorem distance_zero_sq (x y : ℝ) : distance 0 0 x y ^ 2 = x ^ 2 + y ^ 2 := by
  rw [distance_zero, Real.sq_sqrt (by positivity)]

/-- Whenever the magnitude clears the 0.0001 threshold, the Your Choice
normalize_vector really is a unit vector. -/
theorem normalize_vector_unit (x y : ℝ) (h : 0.0001 ≤ distance 0 0 x y) :
    distance 0 0 (normalize_vector x y).1 (normalize_vector x y).2 = 1 := by
  have hpos : 0 < distance 0 0 x y := lt_of_lt_of_le (by norm_num) h
  have hne : ¬ distance 0 0 x y < 0.0001 := not_lt.mpr h
  have hsq : distance 0 0 x y ^ 2 = x ^ 2 + y ^ 2 := distance_zero_sq x y
  simp only [normalize_vector, hne, if_false]
  rw [distance_zero]
  have : (x / distance 0 0 x y) ^ 2 + (y / distance 0 0 x y) ^ 2 = 1 := by
    field_simp
    linarith [hsq]
  rw [this, Real.sqrt_one]

/-- The Hide variant is a unit vector when the magnitude is at least 0.01. -/
theorem hide_normalize_vector_unit (x y : ℝ) (h : 0.01 ≤ distance 0 0 x y) :
    distance 0 0 (hide_normalize_vector x y).1 (hide_normalize_vector x y).2 = 1 := by
  have hpos : 0 < distance 0 0 x y := lt_of_lt_of_le (by norm_num) h
  have hmax : max 0.01 (distance 0 0 x y) = distance 0 0 x y := max_eq_right h
  have hsq : distance 0 0 x y ^ 2 = x ^ 2 + y ^ 2 := distance_zero_sq x y
  simp only [hide_normalize_vector, hmax]
  rw [distance_zero]
  have : (x / distance 0 0 x y) ^ 2 + (y / distance 0 0 x y) ^ 2 = 1 := by
    field_simp
    linarith [hsq]
  rw [this, Real.sqrt_one]

/-- C9 claim as written: some epsilon splits all inputs into a
zero-vector bucket and a unit-vector bucket.  This is what the spec
asserts of normalize_vector. -/
def NormalizeEpsilonPolicy (f : ℝ → ℝ → ℝ × ℝ) : Prop :=
  ∃ ε : ℝ, 0 < ε ∧ ∀ x y : ℝ,
    (distance 0 0 x y < ε → f x y = (0, 0)) ∧
    (ε ≤ distance 0 0 x y → distance 0 0 (f x y).1 (f x y).2 = 1)

theorem distance_zero_eval (x : ℝ) (hx : 0 ≤ x) : distance 0 0 x 0 = x := by
  rw [distance_zero]
  simp [Real.sqrt_sq hx]

/-- C9 counterexample: the Hide variant's normalize_vector maps
(0.001, 0) to (0.1, 0), which is neither the zero vector nor a unit
vector, so no epsilon policy describes it. -/
theorem c9_counterexample :
    hide_normalize_vector 0.001 0 = (0.1, 0) ∧
    hide_normalize_vector 0.001 0 ≠ (0, 0) ∧
    distance 0 0 (hide_normalize_vector 0.001 0).1 (hide_normalize_vector 0.001 0).2 ≠ 1 ∧
    ¬ NormalizeEpsilonPolicy hide_normalize_vector := by
  have hd : distance 0 0 (0.001 : ℝ) 0 = 0.001 := distance_zero_eval _ (by norm_num)
  have hmax : max (0.01 : ℝ) 0.001 = 0.01 := by norm_num
  have hval : hide_normalize_vector 0.001 0 = (0.1, 0) := by
    simp only [hide_normalize_vector, hd, hmax]
    norm_num
  have hmag : distance 0 0 (hide_normalize_vector 0.001 0).1
      (hide_normalize_vector 0.001 0).2 = 0.1 := by
    rw [hval]
    exact distance_zero_eval _ (by norm_num)
  refine ⟨hval, by rw [hval]; intro h; exact absurd (congrArg Prod.fst h) (by norm_num),
    by rw [hmag]; norm_num, ?_⟩
  rintro ⟨ε, hε, hϕ⟩
  rcases le_or_lt ε 0.001 with hcase | hcase
  · have := (hϕ 0.001 0).2 (by rw [hd]; exact hcase)
    rw [hmag] at this
    norm_num at this
  · have hsmall : distance 0 0 (ε / 2) 0 < ε := by
      rw [distance_zero_eval _ (by positivity)]
      linarith
    have hzero := (hϕ (ε / 2) 0).1 hsmall
    have hmag2 : distance 0 0 (ε / 2) 0 ≥ 0.0001 → False := by
      intro _
      have hpos2 : (0 : ℝ) < ε / 2 := by positivity
      have : hide_normalize_vector (ε / 2) 0 = (ε / 2 / max 0.01 (ε / 2), 0) := by
        simp [hide_normalize_vector, distance_zero_eval _ (le_of_lt hpos2)]
      rw [this] at hzero
      have hfst := congrArg Prod.fst hzero
      simp only at hfst
      have hmaxpos : (0 : ℝ) < max 0.01 (ε / 2) := lt_max_of_lt_left (by norm_num)
      have := div_eq_zero_iff.mp hfst
      rcases this with h | h
      · linarith
      · linarith
    -- the first component of the alleged zero output is positive, contradiction
    have hpos2 : (0 : ℝ) < ε / 2 := by positivity
    have : hide_normalize_vector (ε / 2) 0 = (ε / 2 / max 0.01 (ε / 2), 0) := by
      simp [hide_normalize_vector, distance_zero_eval _ (le_of_lt hpos2)]
    rw [this] at hzero
    have hfst := congrArg Prod.fst hzero
    simp only at hfst
    have hmaxpos : (0 : ℝ) < max 0.01 (ε / 2) := lt_max_of_lt_left (by norm_num)
    rcases div_eq_zero_iff.mp hfst with h | h
    · linarith
    · linarith

/-- C9 (amended): the Your Choice normalize_vector follows the
zero-below-epsilon / unit-otherwise policy with ε = 0.0001; the Hide
variant instead divides by max(0.01, magnitude): unit for magnitude at
least 0.01, the scaled vector v/0.01 below that (zero only at zero);
neither divides by zero. -/
theorem c9_normalize_behavior :
    (∀ x y : ℝ, distance 0 0 x y < 0.0001 → normalize_vector x y = (0, 0)) ∧
    (∀ x y : ℝ, 0.0001 ≤ distance 0 0 x y →
      distance 0 0 (normalize_vector x y).1 (normalize_vector x y).2 = 1) ∧
    (∀ x y : ℝ, 0.01 ≤ distance 0 0 x y →
      distance 0 0 (hide_normalize_vector x y).1 (hide_normalize_vector x y).2 = 1) ∧
    (∀ x y : ℝ, distance 0 0 x y < 0.01 →
      hide_normalize_vector x y = (x / 0.01, y / 0.01)) ∧
    hide_normalize_vector 0 0 = (0, 0) := by
  refine ⟨fun x y h => by simp [normalize_vector, h],
    normalize_vector_unit, hide_normalize_vector_unit,
    fun x y h => ?_, ?_⟩
  · have hmax : max 0.01 (distance 0 0 x y) = 0.01 := max_eq_left (le_of_lt h)
    simp [hide_normalize_vector, hmax]
  · have h0 : distance 0 0 (0 : ℝ) 0 = 0 := distance_zero_eval 0 le_rfl
    simp [hide_normalize_vector, h0]

/-- C9 witness: concrete instantiations of each branch of the amended
normalisation theorem. -/
theorem c9_witness :
    normalize_vector 0 0 = (0, 0) ∧
    distance 0 0 (normalize_vector 3 4).1 (normalize_vector 3 4).2 = 1 ∧
    distance 0 0 (hide_normalize_vector 3 4).1 (hide_normalize_vector 3 4).2 = 1 ∧
    hide_normalize_vector 0.001 0 = (0.001 / 0.01, 0 / 0.01) := by
  have h34 : distance 0 0 (3 : ℝ) 4 = 5 := by
    rw [distance_zero]
    rw [show (3 : ℝ) ^ 2 + 4 ^ 2 = 5 ^ 2 by norm_num, Real.sqrt_sq (by norm_num)]
  have h0 : distance 0 0 (0 : ℝ) 0 = 0 := distance_zero_eval 0 le_rfl
  exact ⟨c9_normalize_behavior.1 0 0 (by rw [h0]; norm_num),
    c9_normalize_behavior.2.1 3 4 (by rw [h34]; norm_num),
    c9_normalize_behavior.2.2.1 3 4 (by rw [h34]; norm_num),
    c9_normalize_behavior.2.2.2.1 0.001 0
      (by rw [distance_zero_eval _ (by norm_num)]; norm_num)⟩

/-! ## C10: segments no longer than the 5-unit march step are always clear -/

/-- C10: whenever two points are within 5.0 of each other, the ray-march
loop never executes (sampling starts a full step away and stops strictly
before the segment length), so check_line_of_sight reports clear even if
an obstacle contains both points. -/
theorem c10_short_segment_clear (s e : ℝ × ℝ) (obstacles : List Obstacle)
    (h : distance s.1 s.2 e.1 e.2 ≤ 5) :
    check_line_of_sight s e obstacles = false := by
  unfold check_line_of_sight
  by_cases hlt : distance s.1 s.2 e.1 e.2 < 1.0
  · simp [hlt]
  · have hcount : losCount (distance s.1 s.2 e.1 e.2) = 0 := by
      unfold losCount
      have : ⌈distance s.1 s.2 e.1 e.2 / 5⌉₊ ≤ 1 := by
        rw [Nat.ceil_le]
        have : distance s.1 s.2 e.1 e.2 / 5 ≤ 1 := by linarith
        simpa using this
      omega
    simp [hlt, hcount]

/-- C10 witness: the points (0,0) and (3,0) are 3 apart, both inside the
obstacle at (-1,-1) of size 6, yet line of sight is reported clear. -/
theorem c10_witness :
    distance (0 : ℝ) 0 3 0 ≤ 5 ∧
    (Obstacle.collidepoint ⟨-1, -1, 6⟩ 0 0 = true) ∧
    (Obstacle.collidepoint ⟨-1, -1, 6⟩ 3 0 = true) ∧
    check_line_of_sight (0, 0) (3, 0) [⟨-1, -1, 6⟩] = false := by
  have hd : distance (0 : ℝ) 0 3 0 = 3 := by
    unfold distance
    rw [show ((3 : ℝ) - 0) ^ 2 + (0 - 0) ^ 2 = 3 ^ 2 by norm_num,
      Real.sqrt_sq (by norm_num)]
  refine ⟨by rw [hd]; norm_num, ?_, ?_, ?_⟩
  · simp only [Obstacle.collidepoint, decide_eq_true_eq]
    norm_num
  · simp only [Obstacle.collidepoint, decide_eq_true_eq]
    norm_num
  · exact c10_short_segment_clear (0, 0) (3, 0) _ (by rw [hd]; norm_num)

/-! ## C4: symmetry of the line-of-sight check -/

theorem distance_comm (x1 y1 x2 y2 : ℝ) : distance x1 y1 x2 y2 = distance x2 y2 x1 y1 := by
  unfold distance
  ring_nf

theorem distance_sub (a b : ℝ × ℝ) :
    distance 0 0 (b.1 - a.1) (b.2 - a.2) = distance a.1 a.2 b.1 b.2 := by
  unfold distance
  ring_nf

theorem normalize_vector_of_ge (x y : ℝ) (h : 0.0001 ≤ distance 0 0 x y) :
    normalize_vector x y = (x / distance 0 0 x y, y / distance 0 0 x y) := by
  simp only [normalize_vector]
  rw [if_neg (not_lt.mpr h)]

theorem losCount_eq (d : ℝ) (m : ℕ) (h1 : 5 * m < d) (h2 : d ≤ 5 * (m + 1)) :
    losCount d = m := by
  unfold losCount
  have : ⌈d / 5⌉₊ = m + 1 := by
    rw [Nat.ceil_eq_iff (Nat.succ_ne_zero m)]
    constructor
    · push_cast
      linarith
    · push_cast
      linarith
  omega

/-- Evaluated form of check_line_of_sight for non-degenerate segments. -/
theorem check_line_of_sight_eval (a b : ℝ × ℝ) (obstacles : List Obstacle)
    (h : 1 ≤ distance a.1 a.2 b.1 b.2) :
    check_line_of_sight a b obstacles =
      (List.range (losCount (distance a.1 a.2 b.1 b.2))).any fun k =>
        obstacles.any fun o =>
          o.collidepoint
            (a.1 + (b.1 - a.1) / distance a.1 a.2 b.1 b.2 * (5 * (k + 1)))
            (a.2 + (b.2 - a.2) / distance a.1 a.2 b.1 b.2 * (5 * (k + 1))) := by
  have hnorm : normalize_vector (b.1 - a.1) (b.2 - a.2) =
      ((b.1 - a.1) / distance a.1 a.2 b.1 b.2, (b.2 - a.2) / distance a.1 a.2 b.1 b.2) := by
    rw [normalize_vector_of_ge _ _ (by rw [distance_sub]; linarith), distance_sub]
  have hge : ¬ distance a.1 a.2 b.1 b.2 < 1.0 := by
    norm_num
    linarith
  simp only [check_line_of_sight, losSample, hnorm]
  rw [if_neg hge]

/-- C4 counterexample: with points 12 apart the forward march samples
parameters {5, 10} while the reverse march samples {7, 2}; a thin obstacle
straddling x ∈ [6,8) is hit only by the reverse direction, so
check_line_of_sight is not symmetric. -/
theorem c4_counterexample :
    check_line_of_sight (0, 0) (12, 0) [⟨6, -1, 2⟩] = false ∧
    check_line_of_sight (12, 0) (0, 0) [⟨6, -1, 2⟩] = true := by
  have hd : distance (0 : ℝ) 0 12 0 = 12 := by
    unfold distance
    rw [show ((12 : ℝ) - 0) ^ 2 + ((0 : ℝ) - 0) ^ 2 = 12 ^ 2 by norm_num,
      Real.sqrt_sq (by norm_num)]
  have hd2 : distance (12 : ℝ) 0 0 0 = 12 := by rw [distance_comm]; exact hd
  have hc : losCount (12 : ℝ) = 2 := losCount_eq 12 2 (by norm_num) (by norm_num)
  constructor
  · rw [check_line_of_sight_eval (0, 0) (12, 0) _ (by simp only; rw [hd]; norm_num)]
    simp only [hd, hc]
    rw [show List.range 2 = [0, 1] from rfl]
    simp only [List.any_cons, List.any_nil, Obstacle.collidepoint, Bool.or_false]
    rw [decide_eq_false, decide_eq_false]
    · rfl
    · push_cast
      intro hcon
      norm_num at hcon
    · push_cast
      intro hcon
      norm_num at hcon
  · rw [check_line_of_sight_eval (12, 0) (0, 0) _ (by simp only; rw [hd2]; norm_num)]
    simp only [hd2, hc]
    rw [show List.range 2 = [0, 1] from rfl]
    simp only [List.any_cons, List.any_nil, Obstacle.collidepoint, Bool.or_false]
    rw [decide_eq_true]
    · rfl
    · push_cast
      norm_num

/-- C4 (amended): line-of-sight symmetry does hold whenever the distance
between the two points is an exact natural multiple of the 5-unit march
step, since then the two directions sample exactly the same points. -/
theorem c4_symmetry_on_step_multiples (a b : ℝ × ℝ) (obstacles : List Obstacle)
    (m : ℕ) (h : distance a.1 a.2 b.1 b.2 = 5 * m) :
    check_line_of_sight a b obstacles = check_line_of_sight b a obstacles := by
  rcases Nat.eq_zero_or_pos m with hm | hm
  · subst hm
    unfold check_line_of_sight
    rw [if_pos (by rw [h]; norm_num), if_pos (by rw [distance_comm, h]; norm_num)]
  · have hd1 : 1 ≤ distance a.1 a.2 b.1 b.2 := by
      rw [h]
      have : (1 : ℝ) ≤ m := by exact_mod_cast hm
      linarith
    have hd2 : 1 ≤ distance b.1 b.2 a.1 a.2 := by rw [distance_comm]; exact hd1
    set d : ℝ := distance a.1 a.2 b.1 b.2 with hdd
    have hdpos : 0 < d := lt_of_lt_of_le one_pos hd1
    rw [check_line_of_sight_eval a b obstacles hd1,
      check_line_of_sight_eval b a obstacles hd2]
    rw [show distance b.1 b.2 a.1 a.2 = d from (distance_comm _ _ _ _).trans hdd.symm]
    have hcount : losCount d = m - 1 := by
      apply losCount_eq
      · rw [h]
        push_cast [Nat.cast_sub hm]
        linarith
      · rw [h]
        push_cast [Nat.cast_sub hm]
        linarith
    rw [hcount]
    -- both sides are existential statements over k < m-1; reindex by k ↦ m-2-k
    have key : ∀ k : ℕ, k < m - 1 →
        (b.1 + (a.1 - b.1) / d * (5 * (k + 1)),
         b.2 + (a.2 - b.2) / d * (5 * (k + 1))) =
        (a.1 + (b.1 - a.1) / d * (5 * ((m - 2 - k : ℕ) + 1)),
         a.2 + (b.2 - a.2) / d * (5 * ((m - 2 - k : ℕ) + 1))) := by
      intro k hk
      have hcast : ((m - 2 - k : ℕ) : ℝ) = (m : ℝ) - 2 - k := by
        rw [Nat.sub_sub, Nat.cast_sub (by omega : 2 + k ≤ m)]
        push_cast
        ring
      have hdne : d ≠ 0 := ne_of_gt hdpos
      have hstep : (5 : ℝ) * ((m : ℝ) - 2 - k + 1) = d - 5 * ((k : ℝ) + 1) := by
        rw [h]
        ring
      rw [Prod.mk.injEq]
      constructor
      · rw [hcast, hstep, mul_sub, div_mul_cancel₀ _ hdne]
        ring
      · rw [hcast, hstep, mul_sub, div_mul_cancel₀ _ hdne]
        ring
    cases hab : (List.range (m - 1)).any fun k =>
        obstacles.any fun o =>
          o.collidepoint (a.1 + (b.1 - a.1) / d * (5 * (k + 1)))
            (a.2 + (b.2 - a.2) / d * (5 * (k + 1))) with
    | false =>
      rw [List.any_eq_false] at hab
      symm
      rw [List.any_eq_false]
      intro k hkmem
      rw [List.mem_range] at hkmem
      have hkey := key k hkmem
      have hk2 : m - 2 - k < m - 1 := by omega
      have hmem := hab (m - 2 - k) (List.mem_range.mpr hk2)
      have h1 := congrArg Prod.fst hkey
      have h2 := congrArg Prod.snd hkey
      simp only at h1 h2
      intro hcon
      apply hmem
      rw [← h1, ← h2]
      exact hcon
    | true =>
      rw [List.any_eq_true] at hab
      symm
      rw [List.any_eq_true]
      obtain ⟨k, hkmem, hhit⟩ := hab
      rw [List.mem_range] at hkmem
      refine ⟨m - 2 - k, List.mem_range.mpr (by omega), ?_⟩
      have hk2 : m - 2 - (m - 2 - k) = k := by omega
      have hkey := key (m - 2 - k) (by omega)
      rw [hk2] at hkey
      have h1 := congrArg Prod.fst hkey
      have h2 := congrArg Prod.snd hkey
      simp only at h1 h2
      rw [h1, h2]
      exact hhit

/-- C4 witness: at distance 10 = 5·2 the symmetry theorem applies. -/
theorem c4_witness :
    distance (0 : ℝ) 0 10 0 = 5 * (2 : ℕ) ∧
    check_line_of_sight (0, 0) (10, 0) [⟨6, -1, 2⟩] =
      check_line_of_sight (10, 0) (0, 0) [⟨6, -1, 2⟩] := by
  have hd : distance (0 : ℝ) 0 10 0 = 5 * (2 : ℕ) := by
    unfold distance
    rw [show ((10 : ℝ) - 0) ^ 2 + ((0 : ℝ) - 0) ^ 2 = 10 ^ 2 by norm_num,
      Real.sqrt_sq (by norm_num)]
    norm_num
  exact ⟨hd, c4_symmetry_on_step_multiples (0, 0) (10, 0) _ 2 hd⟩

/-! ## Position predictor (src/Your Choice/ai/prediction.py)

The predictor only performs rational arithmetic, so it is embedded
executably over ℚ.  FPS is a module constant (60) in the source; it is a
parameter here so that the invalid-tick-rate guard can be stated. -/

/-- PositionPredictor.predict_linear: new_pos = old_pos + velocity * time_delta. -/
def predict_linear (position velocity : ℚ × ℚ) (timeDelta : ℚ) : ℚ × ℚ :=
  (position.1 + velocity.1 * timeDelta, position.2 + velocity.2 * timeDelta)

/-- PositionPredictor.predict_future_path: guards on fps ≤ 0 and
interval ≤ 0, then emits steps // interval linear extrapolations at times
(i+1) · interval / fps.  Python integer floor division is Int.fdiv. -/
def predict_future_path (position velocity : ℚ × ℚ) (steps interval : ℤ)
    (fps : ℤ) : List (ℚ × ℚ) :=
  if fps ≤ 0 then []
  else if interval ≤ 0 then []
  else
    let timeIncrementPerFrame : ℚ := 1 / (fps : ℚ)
    let timeIncrementPerPoint : ℚ := timeIncrementPerFrame * (interval : ℚ)
    let numPoints := steps.fdiv interval
    (List.range numPoints.toNat).map fun (i : ℕ) =>
      predict_linear position velocity (timeIncrementPerPoint * ((i : ℚ) + 1))

/-- C8 counterexample: at position (0,0), velocity (10,0), FPS 60,
steps 60, interval 5 the predictor returns 12 points whose last (index 11)
is (10, 0) — not (100, 0) as the claim asserts. -/
theorem c8_counterexample :
    (predict_future_path (0, 0) (10, 0) 60 5 60).length = 12 ∧
    (predict_future_path (0, 0) (10, 0) 60 5 60)[11]? = some (10, 0) ∧
    ((10 : ℚ), (0 : ℚ)) ≠ ((100 : ℚ), (0 : ℚ)) := by
  refine ⟨?_, ?_, by decide⟩
  · simp only [predict_future_path, List.length_map, List.length_range]
    decide
  · unfold predict_future_path
    rw [if_neg (by decide : ¬ (60 : ℤ) ≤ 0), if_neg (by decide : ¬ (5 : ℤ) ≤ 0)]
    rw [List.getElem?_map, List.getElem?_range (by decide : 11 < ((60 : ℤ).fdiv 5).toNat),
      Option.map_some']
    refine congrArg some ?_
    unfold predict_linear
    rw [Prod.mk.injEq]
    constructor
    · push_cast
      norm_num
    · push_cast
      norm_num

/-- C8 (amended): an invalid tick rate (fps ≤ 0) yields the empty
sequence; for positive fps (and positive interval, nonnegative steps) the
path has exactly floor(steps/interval) points, the i-th (1-based) being
position + velocity · (i · interval / fps); in the concrete scenario the
last point is (10, 0), not (100, 0). -/
theorem c8_predict_future_path_spec (position velocity : ℚ × ℚ)
    (steps interval fps : ℤ) (hI : 0 < interval) :
    (fps ≤ 0 → predict_future_path position velocity steps interval fps = []) ∧
    (0 < fps →
      (predict_future_path position velocity steps interval fps).length =
        (steps.fdiv interval).toNat ∧
      ∀ i : ℕ, i < (steps.fdiv interval).toNat →
        (predict_future_path position velocity steps interval fps)[i]? =
          some (position.1 + velocity.1 * (((i : ℚ) + 1) * (interval : ℚ) / (fps : ℚ)),
                position.2 + velocity.2 * (((i : ℚ) + 1) * (interval : ℚ) / (fps : ℚ)))) := by
  constructor
  · intro hfps
    simp [predict_future_path, hfps]
  · intro hfps
    have h1 : ¬ fps ≤ 0 := not_le.mpr hfps
    have h2 : ¬ interval ≤ 0 := not_le.mpr hI
    constructor
    · unfold predict_future_path
      rw [if_neg h1, if_neg h2, List.length_map, List.length_range]
    · intro i hi
      unfold predict_future_path
      rw [if_neg h1, if_neg h2]
      rw [List.getElem?_map, List.getElem?_range hi, Option.map_some']
      refine congrArg some ?_
      unfold predict_linear
      rw [Prod.mk.injEq]
      constructor
      · ring
      · ring

/-- C8 witness: the amended theorem applied at the spec scenario
(position (0,0), velocity (10,0), 60 steps, interval 5, FPS 60). -/
theorem c8_witness :
    (predict_future_path (0, 0) (10, 0) 60 5 60).length = ((60 : ℤ).fdiv 5).toNat ∧
    (predict_future_path (0, 0) (10, 0) 60 5 60)[11]? =
      some (0 + 10 * (((11 : ℚ) + 1) * (5 : ℚ) / (60 : ℚ)), 0 + 0 * (((11 : ℚ) + 1) * (5 : ℚ) / (60 : ℚ))) := by
  have h := (c8_predict_future_path_spec (0, 0) (10, 0) 60 5 60 (by decide)).2
    (by decide)
  exact ⟨h.1, h.2 11 (by decide)⟩

/-! ## Steering blend (src/Your Choice/defender_ai.py and src/Attack/defensive_car.py) -/

noncomputable section
open Classical

/-- DefenderAI.calculate_movement_velocity (Your Choice): dynamic avoidance
weight from the opposition dot product, tiers at -0.7 and -0.2. -/
def defender_avoid_weight (oppositionDot : ℝ) : ℝ :=
  if oppositionDot < -0.7 then 0.2
  else if oppositionDot < -0.2 then 0.4
  else 0.8

/-- DefensiveCar.move_to_target (Attack): dynamic avoidance weight from the
opposition dot product, tiers at -0.5 and 0. -/
def defensive_car_avoid_weight (oppositionDot : ℝ) : ℝ :=
  if oppositionDot < -0.5 then 0.1
  else if oppositionDot < 0 then 0.3
  else 0.7

/-- The combine step of DefenderAI.calculate_movement_velocity: when the
accumulated avoidance vector is non-negligible (magnitude > 0.01), blend the
normalized target direction with the normalized avoidance direction using
the dynamic weight, then renormalize. -/
def defender_combine (normTarget avoidance : ℝ × ℝ) : ℝ × ℝ :=
  let avoidMag := Real.sqrt (avoidance.1 ^ 2 + avoidance.2 ^ 2)
  if 0.01 < avoidMag then
    let na := (avoidance.1 / avoidMag, avoidance.2 / avoidMag)
    let oppositionDot := normTarget.1 * na.1 + normTarget.2 * na.2
    let w := defender_avoid_weight oppositionDot
    normalize_vector (normTarget.1 * (1 - w) + na.1 * w)
      (normTarget.2 * (1 - w) + na.2 * w)
  else normTarget

/-- The combine step of DefensiveCar.move_to_target (Attack variant). -/
def defensive_car_combine (normTarget avoidance : ℝ × ℝ) : ℝ × ℝ :=
  let avoidMag := Real.sqrt (avoidance.1 ^ 2 + avoidance.2 ^ 2)
  if 0.01 < avoidMag then
    let na := (avoidance.1 / avoidMag, avoidance.2 / avoidMag)
    let oppositionDot := normTarget.1 * na.1 + normTarget.2 * na.2
    let w := defensive_car_avoid_weight oppositionDot
    normalize_vector (normTarget.1 * (1 - w) + na.1 * w)
      (normTarget.2 * (1 - w) + na.2 * w)
  else normTarget

end

/-- C6 counterexample: in DefenderAI's blend the dots -0.75 and -0.6 are
both below -0.5, yet they receive different weights (0.2 and 0.4), so the
blend weight is not determined by a boundary at -0.5 with a single low
weight below it. -/
theorem c6_counterexample :
    defender_avoid_weight (-0.75) = 0.2 ∧
    defender_avoid_weight (-0.6) = 0.4 ∧
    (0.2 : ℝ) ≠ 0.4 := by
  refine ⟨?_, ?_, by norm_num⟩
  · rw [defender_avoid_weight, if_pos (by norm_num)]
  · rw [defender_avoid_weight, if_neg (by norm_num), if_pos (by norm_num)]

/-- C6 (amended): both steering blends pick the avoidance weight from a
three-tier function of the opposition dot product.  DefenderAI (Your
Choice) uses boundaries -0.7 and -0.2 with weights 0.2 / 0.4 / 0.8; the
Attack DefensiveCar uses boundaries -0.5 and 0 with weights 0.1 / 0.3 /
0.7.  In both, dots below the most-opposing boundary get the lowest weight
and non-opposing dots get the highest. -/
theorem c6_avoid_weight_tiers (oppositionDot : ℝ) :
    (oppositionDot < -0.7 → defender_avoid_weight oppositionDot = 0.2) ∧
    (-0.7 ≤ oppositionDot → oppositionDot < -0.2 →
      defender_avoid_weight oppositionDot = 0.4) ∧
    (-0.2 ≤ oppositionDot → defender_avoid_weight oppositionDot = 0.8) ∧
    (oppositionDot < -0.5 → defensive_car_avoid_weight oppositionDot = 0.1) ∧
    (-0.5 ≤ oppositionDot → oppositionDot < 0 →
      defensive_car_avoid_weight oppositionDot = 0.3) ∧
    (0 ≤ oppositionDot → defensive_car_avoid_weight oppositionDot = 0.7) := by
  refine ⟨fun h => ?_, fun h1 h2 => ?_, fun h => ?_, fun h => ?_, fun h1 h2 => ?_,
    fun h => ?_⟩
  · rw [defender_avoid_weight, if_pos h]
  · rw [defender_avoid_weight, if_neg (not_lt.mpr h1), if_pos h2]
  · rw [defender_avoid_weight, if_neg (by norm_num; linarith), if_neg (not_lt.mpr h)]
  · rw [defensive_car_avoid_weight, if_pos h]
  · rw [defensive_car_avoid_weight, if_neg (not_lt.mpr h1), if_pos h2]
  · rw [defensive_car_avoid_weight, if_neg (by norm_num; linarith),
      if_neg (not_lt.mpr h)]

/-- C6 witness: the tier theorem applied at concrete dot products. -/
theorem c6_witness :
    defender_avoid_weight (-0.8) = 0.2 ∧
    defender_avoid_weight (-0.5) = 0.4 ∧
    defender_avoid_weight 0.5 = 0.8 ∧
    defensive_car_avoid_weight (-0.8) = 0.1 ∧
    defensive_car_avoid_weight (-0.25) = 0.3 ∧
    defensive_car_avoid_weight 0.5 = 0.7 :=
  ⟨(c6_avoid_weight_tiers (-0.8)).1 (by norm_num),
   (c6_avoid_weight_tiers (-0.5)).2.1 (by norm_num) (by norm_num),
   (c6_avoid_weight_tiers 0.5).2.2.1 (by norm_num),
   (c6_avoid_weight_tiers (-0.8)).2.2.2.1 (by norm_num),
   (c6_avoid_weight_tiers (-0.25)).2.2.2.2.1 (by norm_num) (by norm_num),
   (c6_avoid_weight_tiers 0.5).2.2.2.2.2 (by norm_num)⟩

/-! ## Defense FSM (src/Your Choice/ai/fsm.py)

The FSM is embedded as a pure step function on an explicit state record.
pygame.time.get_ticks() is the `now` input of each tick; car positions and
the obstacle list are per-tick inputs.  Python floats are idealised as ℝ,
so the NaN-validation branch of update always takes the valid path, and
the post-handler `target_position != self.last_target_pos` re-query is
kept although it can never fire (the validation step has just set
last_target_pos to target_position). -/

/-- DefenseState enum (fsm.py). -/
inductive DefenseState where
  | IDLE
  | EVADE
  | PATROL
  | HIDE
  | RETURN_TO_SAFE_AREA
deriving DecidableEq, Repr

/-- Mutable fields of the FSM object (fsm.py FSM.__init__). -/
structure FSMState where
  current_state : DefenseState
  patrol_points : List (ℝ × ℝ)
  current_patrol_index : ℕ
  last_target_pos : Option (ℝ × ℝ)
  current_hide_target : Option (ℝ × ℝ)
  state_entry_time : ℤ
  min_state_time : ℤ

/-- The freshly constructed FSM. -/
def initFSM : FSMState :=
  { current_state := DefenseState.IDLE
    patrol_points := []
    current_patrol_index := 0
    last_target_pos := none
    current_hide_target := none
    state_entry_time := 0
    min_state_time := 500 }

/-- Per-tick inputs of FSM.update: the clock, both car positions (centres,
as produced by get_position), the defender's width (used as the evade
clamping margin) and the obstacle list. -/
structure TickInput where
  now : ℤ
  defensePos : ℝ × ℝ
  playerPos : ℝ × ℝ
  width : ℝ
  obstacles : List Obstacle

noncomputable section
open Classical

/-- FSM._is_safe: hidden means line of sight from the player is blocked. -/
def is_safe (defensePos playerPos : ℝ × ℝ) (obstacles : List Obstacle) : Bool :=
  check_line_of_sight playerPos defensePos obstacles

/-- FSM.change_state: on an actual change, record the new state, reset the
dwell timer and clear the cached hide target. -/
def change_state (s : FSMState) (next : DefenseState) (now : ℤ) : FSMState :=
  if s.current_state ≠ next then
    { s with current_state := next, state_entry_time := now, current_hide_target := none }
  else s

/-- FSM.handle_idle: hold position. -/
def handle_idle (defensePos : ℝ × ℝ) : ℝ × ℝ := defensePos

/-- FSM.handle_evade: move away from the player past SAFE_DISTANCE × 1.1,
clamped to the screen with a margin of the full car width. -/
def handle_evade (defensePos playerPos : ℝ × ℝ) (width : ℝ) : ℝ × ℝ :=
  let nd := normalize_vector (defensePos.1 - playerPos.1) (defensePos.2 - playerPos.2)
  let targetX := defensePos.1 + nd.1 * SAFE_DISTANCE * 1.1
  let targetY := defensePos.2 + nd.2 * SAFE_DISTANCE * 1.1
  let margin := width
  (max margin (min targetX (SCREEN_WIDTH - margin)),
   max margin (min targetY (SCREEN_HEIGHT - margin)))

/-- FSM.handle_patrol: head for the current patrol waypoint; when within 30
units advance (cyclically) to the next one.  The patrol index always stays
below the list length, so the list lookup is total (getD default unused). -/
def handle_patrol (s : FSMState) (defensePos : ℝ × ℝ) (now : ℤ) : FSMState × (ℝ × ℝ) :=
  if s.patrol_points = [] then (change_state s DefenseState.IDLE now, defensePos)
  else
    let target := s.patrol_points.getD s.current_patrol_index (0, 0)
    if distance defensePos.1 defensePos.2 target.1 target.2 < 30 then
      let idx := (s.current_patrol_index + 1) % s.patrol_points.length
      let target2 := s.patrol_points.getD idx (0, 0)
      ({ s with current_patrol_index := idx, last_target_pos := some target2 }, target2)
    else (s, target)

/-- The per-obstacle filter and scoring step of FSM.find_best_hiding_spot
(the first loop): relevance filters, then
score = 0.6·distance + 0.4·angleDegrees (angle at the defender between
the player direction and the obstacle direction, 180 for degenerate
vectors). -/
def hide_candidate_score (defensePos playerPos : ℝ × ℝ) (distPlyDef : ℝ)
    (obs : Obstacle) : Option (Obstacle × ℝ) :=
  let cx : ℝ := (obs.center.1 : ℝ)
  let cy : ℝ := (obs.center.2 : ℝ)
  let distDefObs := distance defensePos.1 defensePos.2 cx cy
  if HIDE_TRIGGER_DISTANCE * 1.5 < distDefObs then none
  else
    let distPlyObs := distance playerPos.1 playerPos.2 cx cy
    if distPlyObs < distPlyDef * 1.2 ∨ distDefObs < distPlyDef then
      let vpx := playerPos.1 - defensePos.1
      let vpy := playerPos.2 - defensePos.2
      let vox := cx - defensePos.1
      let voy := cy - defensePos.2
      let magPly := Real.sqrt (vpx ^ 2 + vpy ^ 2)
      let magObs := Real.sqrt (vox ^ 2 + voy ^ 2)
      let angleDeg : ℝ :=
        if 0.1 < magPly ∧ 0.1 < magObs then
          Real.arccos (max (-1) (min 1 ((vpx * vox + vpy * voy) / (magPly * magObs)))) *
            (180 / Real.pi)
        else 180
      some (obs, distDefObs * OBSTACLE_SORT_WEIGHT_DIST + angleDeg * OBSTACLE_SORT_WEIGHT_ANGLE)
    else none

/-- The per-candidate hiding point of find_best_hiding_spot (the second
loop): projected point behind the obstacle, in-bounds check, then the
line-of-sight validation from the player. -/
def hide_spot_of_candidate (defensePos playerPos : ℝ × ℝ)
    (obstacles : List Obstacle) (c : Obstacle × ℝ) : Option ((ℝ × ℝ) × ℝ) :=
  let obs := c.1
  let cx : ℝ := (obs.center.1 : ℝ)
  let cy : ℝ := (obs.center.2 : ℝ)
  let nd := normalize_vector (cx - playerPos.1) (cy - playerPos.2)
  let buffer := (obs.size : ℝ) / 2 + BUFFER_BEHIND_OBSTACLE
  let hideX := cx + nd.1 * buffer
  let hideY := cy + nd.2 * buffer
  if 10 < hideX ∧ hideX < SCREEN_WIDTH - 10 ∧ 10 < hideY ∧ hideY < SCREEN_HEIGHT - 10 then
    if is_safe (hideX, hideY) playerPos obstacles then
      some ((hideX, hideY), distance defensePos.1 defensePos.2 hideX hideY)
    else none
  else none

/-- FSM.find_best_hiding_spot: score and rank nearby obstacles (stable
ascending sort), keep the top 5, project a hiding point behind each,
validate bounds and line of sight, and return the surviving point closest
to the defender. -/
def find_best_hiding_spot (defensePos playerPos : ℝ × ℝ)
    (obstacles : List Obstacle) : Option (ℝ × ℝ) :=
  let distPlyDef := distance playerPos.1 playerPos.2 defensePos.1 defensePos.2
  let candidates : List (Obstacle × ℝ) :=
    obstacles.filterMap (hide_candidate_score defensePos playerPos distPlyDef)
  let sortedCands := List.insertionSort (fun a b : Obstacle × ℝ => a.2 ≤ b.2) candidates
  let potentialSpots : List ((ℝ × ℝ) × ℝ) :=
    (sortedCands.take MAX_HIDE_SEARCH_OBSTACLES).filterMap
      (hide_spot_of_candidate defensePos playerPos obstacles)
  let sortedSpots := List.insertionSort (fun a b : (ℝ × ℝ) × ℝ => a.2 ≤ b.2) potentialSpots
  sortedSpots.head?.map Prod.fst

/-- The find-or-evade phase of FSM.handle_hide: adopt the best hiding spot
when one exists, otherwise fall back to the evade target (without a state
change). -/
def hide_find (s : FSMState) (defensePos playerPos : ℝ × ℝ) (width : ℝ)
    (obstacles : List Obstacle) : FSMState × (ℝ × ℝ) :=
  match find_best_hiding_spot defensePos playerPos obstacles with
  | some spot => ({ s with current_hide_target := some spot }, spot)
  | none => (s, handle_evade defensePos playerPos width)

/-- FSM.handle_hide: stay put when parked close to a still-safe cached
target; keep moving to a cached target that is still safe; otherwise clear
the cache and search again (the Python recursion unfolds into the
find-or-evade phase). -/
def handle_hide (s : FSMState) (defensePos playerPos : ℝ × ℝ) (width : ℝ)
    (obstacles : List Obstacle) : FSMState × (ℝ × ℝ) :=
  match s.current_hide_target with
  | some t =>
    if distance defensePos.1 defensePos.2 t.1 t.2 < 20 then
      if is_safe defensePos playerPos obstacles then (s, defensePos)
      else hide_find { s with current_hide_target := none } defensePos playerPos width obstacles
    else
      if is_safe t playerPos obstacles then (s, t)
      else hide_find { s with current_hide_target := none } defensePos playerPos width obstacles
  | none => hide_find s defensePos playerPos width obstacles

/-- FSM.handle_return_to_safe_area: head for the screen centre; within 50
units switch back to PATROL/IDLE. -/
def handle_return_to_safe_area (s : FSMState) (defensePos : ℝ × ℝ) (now : ℤ) :
    FSMState × (ℝ × ℝ) :=
  let target : ℝ × ℝ := (SCREEN_WIDTH / 2, SCREEN_HEIGHT / 2)
  if distance defensePos.1 defensePos.2 target.1 target.2 < 50 then
    (change_state s (if s.patrol_points ≠ [] then DefenseState.PATROL else DefenseState.IDLE) now,
     target)
  else (s, target)

/-- The transition evaluation of FSM.update (next_state computation). -/
def fsm_next_state (s : FSMState) (now : ℤ) (dist : ℝ) (safe : Bool) : DefenseState :=
  if dist < VERY_CLOSE_DISTANCE then DefenseState.EVADE
  else if s.min_state_time ≤ now - s.state_entry_time then
    if safe = false ∧ dist < HIDE_TRIGGER_DISTANCE then DefenseState.HIDE
    else if safe = true ∧ s.current_state = DefenseState.HIDE then
      if HIDE_TRIGGER_DISTANCE * 1.2 < dist then
        (if s.patrol_points ≠ [] then DefenseState.PATROL else DefenseState.IDLE)
      else DefenseState.HIDE
    else if s.current_state = DefenseState.HIDE ∧ safe = false then DefenseState.HIDE
    else if HIDE_TRIGGER_DISTANCE * 1.1 < dist then
      if s.current_state ≠ DefenseState.PATROL ∧ s.current_state ≠ DefenseState.IDLE then
        (if s.patrol_points ≠ [] then DefenseState.PATROL else DefenseState.IDLE)
      else s.current_state
    else if (s.current_state = DefenseState.PATROL ∨ s.current_state = DefenseState.IDLE) ∧
        dist < HIDE_TRIGGER_DISTANCE then DefenseState.HIDE
    else s.current_state
  else s.current_state

/-- The state-to-handler dispatch table of FSM.update. -/
def fsm_dispatch (s1 : FSMState) (inp : TickInput) : FSMState × (ℝ × ℝ) :=
  match s1.current_state with
  | DefenseState.IDLE => (s1, handle_idle inp.defensePos)
  | DefenseState.EVADE => (s1, handle_evade inp.defensePos inp.playerPos inp.width)
  | DefenseState.PATROL => handle_patrol s1 inp.defensePos inp.now
  | DefenseState.HIDE => handle_hide s1 inp.defensePos inp.playerPos inp.width inp.obstacles
  | DefenseState.RETURN_TO_SAFE_AREA => handle_return_to_safe_area s1 inp.defensePos inp.now

/-- FSM.update: transition (with very-close override and dwell-time gate),
state handler dispatch, target validation (always valid over ℝ), and the
dead post-handler hide-target re-query. -/
def fsm_update (s : FSMState) (inp : TickInput) : FSMState × (ℝ × ℝ) :=
  let distToPlayer :=
    distance inp.playerPos.1 inp.playerPos.2 inp.defensePos.1 inp.defensePos.2
  let isCurrentlySafe := is_safe inp.defensePos inp.playerPos inp.obstacles
  let s1 := change_state s (fsm_next_state s inp.now distToPlayer isCurrentlySafe) inp.now
  let step : FSMState × (ℝ × ℝ) := fsm_dispatch s1 inp
  let s3 := { step.1 with last_target_pos := some step.2 }
  let s4 :=
    if s3.current_state = DefenseState.HIDE ∧ some step.2 ≠ s3.last_target_pos then
      match find_best_hiding_spot inp.defensePos inp.playerPos inp.obstacles with
      | some spot => { s3 with current_hide_target := some spot }
      | none => s3
    else s3
  (s4, step.2)

/-- The FSM state after folding a list of tick inputs. -/
def fsm_after (s : FSMState) (inputs : List TickInput) : FSMState :=
  inputs.foldl (fun st inp => (fsm_update st inp).1) s

end

/-! ## C2: every returned hiding spot is hidden from the threat -/

theorem head_map_mem {α β : Type} (l : List α) (f : α → β) (b : β)
    (h : (l.head?).map f = some b) : ∃ a ∈ l, f a = b := by
  cases l with
  | nil => simp at h
  | cons x xs =>
    simp only [List.head?_cons, Option.map_some'] at h
    exact ⟨x, List.mem_cons_self x xs, Option.some_inj.mp h⟩

/-- C2: whenever the cover-point search returns a position, the line of
sight from the threat (player) position to that position is blocked: every
candidate surviving to the final selection passed exactly this check. -/
theorem c2_hiding_spot_blocked (defensePos playerPos : ℝ × ℝ)
    (obstacles : List Obstacle) (spot : ℝ × ℝ)
    (h : find_best_hiding_spot defensePos playerPos obstacles = some spot) :
    check_line_of_sight playerPos spot obstacles = true := by
  simp only [find_best_hiding_spot] at h
  obtain ⟨a, hamem, hafst⟩ := head_map_mem _ _ _ h
  rw [(List.perm_insertionSort _ _).mem_iff] at hamem
  obtain ⟨c, _, hfc⟩ := List.mem_filterMap.mp hamem
  simp only [hide_spot_of_candidate] at hfc
  split_ifs at hfc with hbounds hsafe
  · rw [Option.some_inj] at hfc
    subst hfc
    subst hafst
    simpa [is_safe] using hsafe


/-! ## C7: the Evade handler and its clamping margin -/

theorem distance_eval (x1 y1 x2 y2 r : ℝ) (hr : 0 ≤ r)
    (h : (x2 - x1) ^ 2 + (y2 - y1) ^ 2 = r ^ 2) : distance x1 y1 x2 y2 = r := by
  unfold distance
  rw [h, Real.sqrt_sq hr]

theorem normalize_eval (x y r : ℝ) (hr : 0.0001 ≤ r) (h : x ^ 2 + y ^ 2 = r ^ 2) :
    normalize_vector x y = (x / r, y / r) := by
  have h0 : (0 : ℝ) ≤ r := le_trans (by norm_num) hr
  have hmag : distance 0 0 x y = r := by
    apply distance_eval 0 0 x y r h0
    ring_nf
    ring_nf at h
    linarith
  simp only [normalize_vector, hmag]
  rw [if_neg (not_lt.mpr hr)]

noncomputable section
open Classical

/-- Modelled from the claim wording: the Evade target — defender position
plus the normalized threat-to-defender direction scaled by the safe
distance times 1.1, clamped componentwise — with the margin the claim
states: HALF the agent width. -/
def evade_target_claim (defensePos playerPos : ℝ × ℝ) (width : ℝ) : ℝ × ℝ :=
  let u := normalize_vector (defensePos.1 - playerPos.1) (defensePos.2 - playerPos.2)
  let margin := width / 2
  (max margin (min (defensePos.1 + u.1 * (SAFE_DISTANCE * 1.1)) (SCREEN_WIDTH - margin)),
   max margin (min (defensePos.2 + u.2 * (SAFE_DISTANCE * 1.1)) (SCREEN_HEIGHT - margin)))

/-- The same construction with the margin the code uses: the FULL agent
width. -/
def evade_target_full_width_margin (defensePos playerPos : ℝ × ℝ) (width : ℝ) : ℝ × ℝ :=
  let u := normalize_vector (defensePos.1 - playerPos.1) (defensePos.2 - playerPos.2)
  let margin := width
  (max margin (min (defensePos.1 + u.1 * (SAFE_DISTANCE * 1.1)) (SCREEN_WIDTH - margin)),
   max margin (min (defensePos.2 + u.2 * (SAFE_DISTANCE * 1.1)) (SCREEN_HEIGHT - margin)))

end

/-- C7 counterexample: a defender at (5,400) of width 30 fleeing a threat
at (500,400) is clamped to x = 30 (the full width), not x = 15 (the
half-width margin the claim asserts). -/
theorem c7_counterexample :
    handle_evade (5, 400) (500, 400) 30 = (30, 400) ∧
    evade_target_claim (5, 400) (500, 400) 30 = (15, 400) ∧
    ((30 : ℝ), (400 : ℝ)) ≠ ((15 : ℝ), (400 : ℝ)) := by
  have hn : normalize_vector ((5 : ℝ) - 500) ((400 : ℝ) - 400) = (-495 / 495, 0 / 495) := by
    rw [show ((5 : ℝ) - 500) = -495 by norm_num, show ((400 : ℝ) - 400) = 0 by norm_num]
    exact normalize_eval (-495) 0 495 (by norm_num) (by norm_num)
  refine ⟨?_, ?_, ?_⟩
  · simp only [handle_evade, hn]
    rw [Prod.mk.injEq]
    constructor
    · rw [SAFE_DISTANCE, SCREEN_WIDTH]
      norm_num
    · rw [SAFE_DISTANCE, SCREEN_HEIGHT]
      norm_num
  · simp only [evade_target_claim, hn]
    rw [Prod.mk.injEq]
    constructor
    · rw [SAFE_DISTANCE, SCREEN_WIDTH]
      norm_num
    · rw [SAFE_DISTANCE, SCREEN_HEIGHT]
      norm_num
  · intro hcon
    exact absurd (congrArg Prod.fst hcon) (by norm_num)

/-- C7 (amended): the Evade handler returns the point obtained by moving
from the defender's position along the normalized threat-to-defender
direction scaled by SAFE_DISTANCE × 1.1, clamped componentwise to the
playable bounds with a margin equal to the agent's FULL width. -/
theorem c7_evade_full_width_margin (defensePos playerPos : ℝ × ℝ) (width : ℝ) :
    handle_evade defensePos playerPos width =
      evade_target_full_width_margin defensePos playerPos width := by
  simp only [handle_evade, evade_target_full_width_margin, mul_assoc]

/-! ## C3: dwell-time hysteresis and the very-close override -/

/-- States reachable by the transition logic from the initial state: never
RETURN_TO_SAFE_AREA, and PATROL only with a configured route.  Under this
invariant no handler performs its own (dwell-bypassing) state change. -/
def StateOK (s : FSMState) : Prop :=
  s.current_state ≠ DefenseState.RETURN_TO_SAFE_AREA ∧
  (s.current_state = DefenseState.PATROL → s.patrol_points ≠ [])

theorem change_state_current (s : FSMState) (next : DefenseState) (now : ℤ) :
    (change_state s next now).current_state = next := by
  unfold change_state
  split_ifs with h
  · rfl
  · exact not_ne_iff.mp h

theorem change_state_fields (s : FSMState) (next : DefenseState) (now : ℤ) :
    (change_state s next now).patrol_points = s.patrol_points ∧
    (change_state s next now).min_state_time = s.min_state_time := by
  unfold change_state
  split_ifs <;> exact ⟨rfl, rfl⟩

theorem change_state_entry_of_ne (s : FSMState) (next : DefenseState) (now : ℤ)
    (h : s.current_state ≠ next) : (change_state s next now).state_entry_time = now := by
  unfold change_state
  rw [if_pos h]

theorem change_state_entry_of_eq (s : FSMState) (next : DefenseState) (now : ℤ)
    (h : s.current_state = next) : (change_state s next now).state_entry_time =
      s.state_entry_time := by
  unfold change_state
  rw [if_neg (not_ne_iff.mpr h)]

theorem handle_patrol_preserves (s : FSMState) (dp : ℝ × ℝ) (now : ℤ)
    (h : s.patrol_points ≠ []) :
    (handle_patrol s dp now).1.current_state = s.current_state ∧
    (handle_patrol s dp now).1.state_entry_time = s.state_entry_time ∧
    (handle_patrol s dp now).1.patrol_points = s.patrol_points ∧
    (handle_patrol s dp now).1.min_state_time = s.min_state_time := by
  simp only [handle_patrol, if_neg h]
  split_ifs <;> exact ⟨rfl, rfl, rfl, rfl⟩

theorem hide_find_preserves (s : FSMState) (dp pp : ℝ × ℝ) (w : ℝ)
    (obstacles : List Obstacle) :
    (hide_find s dp pp w obstacles).1.current_state = s.current_state ∧
    (hide_find s dp pp w obstacles).1.state_entry_time = s.state_entry_time ∧
    (hide_find s dp pp w obstacles).1.patrol_points = s.patrol_points ∧
    (hide_find s dp pp w obstacles).1.min_state_time = s.min_state_time := by
  unfold hide_find
  cases find_best_hiding_spot dp pp obstacles <;> exact ⟨rfl, rfl, rfl, rfl⟩

theorem handle_hide_preserves (s : FSMState) (dp pp : ℝ × ℝ) (w : ℝ)
    (obstacles : List Obstacle) :
    (handle_hide s dp pp w obstacles).1.current_state = s.current_state ∧
    (handle_hide s dp pp w obstacles).1.state_entry_time = s.state_entry_time ∧
    (handle_hide s dp pp w obstacles).1.patrol_points = s.patrol_points ∧
    (handle_hide s dp pp w obstacles).1.min_state_time = s.min_state_time := by
  unfold handle_hide
  cases htgt : s.current_hide_target with
  | none => exact hide_find_preserves s dp pp w obstacles
  | some t =>
    dsimp only
    split_ifs <;>
      first
        | exact ⟨rfl, rfl, rfl, rfl⟩
        | exact hide_find_preserves _ dp pp w obstacles

theorem fsm_next_state_ne_return (s : FSMState) (now : ℤ) (dist : ℝ) (safe : Bool)
    (h : s.current_state ≠ DefenseState.RETURN_TO_SAFE_AREA) :
    fsm_next_state s now dist safe ≠ DefenseState.RETURN_TO_SAFE_AREA := by
  unfold fsm_next_state
  split_ifs <;> simp_all

theorem fsm_next_state_patrol (s : FSMState) (now : ℤ) (dist : ℝ) (safe : Bool)
    (hok : s.current_state = DefenseState.PATROL → s.patrol_points ≠ []) :
    fsm_next_state s now dist safe = DefenseState.PATROL → s.patrol_points ≠ [] := by
  unfold fsm_next_state
  split_ifs <;> simp_all

theorem fsm_next_state_dwell (s : FSMState) (now : ℤ) (dist : ℝ) (safe : Bool)
    (hd : VERY_CLOSE_DISTANCE ≤ dist)
    (hne : fsm_next_state s now dist safe ≠ s.current_state) :
    s.min_state_time ≤ now - s.state_entry_time := by
  unfold fsm_next_state at hne
  split_ifs at hne <;> simp_all [not_lt.mpr hd]

theorem fsm_next_state_evade (s : FSMState) (now : ℤ) (dist : ℝ) (safe : Bool)
    (h : dist < VERY_CLOSE_DISTANCE) : fsm_next_state s now dist safe = DefenseState.EVADE := by
  unfold fsm_next_state
  rw [if_pos h]

theorem fsm_dispatch_preserves (s1 : FSMState) (inp : TickInput)
    (h1 : s1.current_state ≠ DefenseState.RETURN_TO_SAFE_AREA)
    (h2 : s1.current_state = DefenseState.PATROL → s1.patrol_points ≠ []) :
    (fsm_dispatch s1 inp).1.current_state = s1.current_state ∧
    (fsm_dispatch s1 inp).1.state_entry_time = s1.state_entry_time ∧
    (fsm_dispatch s1 inp).1.patrol_points = s1.patrol_points ∧
    (fsm_dispatch s1 inp).1.min_state_time = s1.min_state_time := by
  unfold fsm_dispatch
  cases hc : s1.current_state with
  | IDLE => simp [hc]
  | EVADE => simp [hc]
  | PATROL =>
    simp only [hc]
    have := handle_patrol_preserves s1 inp.defensePos inp.now (h2 hc)
    rw [hc] at this
    exact this
  | HIDE =>
    simp only [hc]
    have := handle_hide_preserves s1 inp.defensePos inp.playerPos inp.width inp.obstacles
    rw [hc] at this
    exact this
  | RETURN_TO_SAFE_AREA => exact absurd hc h1

/-- Cumulative effect of one FSM.update step under the reachable-state
invariant: the invariant is preserved; the patrol route and dwell window
are unchanged; the dwell timer is untouched without a state change and set
to now on a change; and (away from the very-close override) a state change
can only happen after min_state_time has elapsed in the old state. -/
theorem fsm_update_step (s : FSMState) (inp : TickInput) (hok : StateOK s) :
    StateOK (fsm_update s inp).1 ∧
    (fsm_update s inp).1.min_state_time = s.min_state_time ∧
    (fsm_update s inp).1.patrol_points = s.patrol_points ∧
    ((fsm_update s inp).1.current_state = s.current_state →
      (fsm_update s inp).1.state_entry_time = s.state_entry_time) ∧
    ((fsm_update s inp).1.current_state ≠ s.current_state →
      (fsm_update s inp).1.state_entry_time = inp.now) ∧
    ((fsm_update s inp).1.current_state ≠ s.current_state →
      VERY_CLOSE_DISTANCE ≤
        distance inp.playerPos.1 inp.playerPos.2 inp.defensePos.1 inp.defensePos.2 →
      s.min_state_time ≤ inp.now - s.state_entry_time) := by
  obtain ⟨hret, hpat⟩ := hok
  set dist := distance inp.playerPos.1 inp.playerPos.2 inp.defensePos.1 inp.defensePos.2
  set safe := is_safe inp.defensePos inp.playerPos inp.obstacles
  set n := fsm_next_state s inp.now dist safe with hn
  set s1 := change_state s n inp.now with hs1
  have hs1cur : s1.current_state = n := change_state_current s n inp.now
  have hs1fields := change_state_fields s n inp.now
  have hnret : n ≠ DefenseState.RETURN_TO_SAFE_AREA :=
    fsm_next_state_ne_return s inp.now dist safe hret
  have hnpat : n = DefenseState.PATROL → s.patrol_points ≠ [] :=
    fsm_next_state_patrol s inp.now dist safe hpat
  have hdisp := fsm_dispatch_preserves s1 inp (by rw [hs1cur]; exact hnret)
    (by rw [hs1cur, hs1fields.1]; exact hnpat)
  have hupd : (fsm_update s inp).1.current_state = n ∧
      (fsm_update s inp).1.state_entry_time = s1.state_entry_time ∧
      (fsm_update s inp).1.patrol_points = s.patrol_points ∧
      (fsm_update s inp).1.min_state_time = s.min_state_time := by
    show ((fun st => st) (fsm_update s inp).1).current_state = n ∧ _
    simp only [fsm_update]
    rw [← hn, ← hs1]
    have hcond : ¬ (({ (fsm_dispatch s1 inp).1 with
        last_target_pos := some (fsm_dispatch s1 inp).2 }.current_state = DefenseState.HIDE ∧
        some (fsm_dispatch s1 inp).2 ≠
          ({ (fsm_dispatch s1 inp).1 with
            last_target_pos := some (fsm_dispatch s1 inp).2 }.last_target_pos))) := by
      intro hcon
      exact hcon.2 rfl
    rw [if_neg hcond]
    refine ⟨?_, ?_, ?_, ?_⟩
    · show (fsm_dispatch s1 inp).1.current_state = n
      rw [hdisp.1, hs1cur]
    · exact hdisp.2.1
    · rw [hdisp.2.2.1, hs1fields.1]
    · rw [hdisp.2.2.2, hs1fields.2]
  refine ⟨⟨by rw [hupd.1]; exact hnret, ?_⟩, hupd.2.2.2, hupd.2.2.1, ?_, ?_, ?_⟩
  · intro hp
    rw [hupd.2.2.1]
    exact hnpat (hupd.1 ▸ hp)
  · intro heq
    rw [hupd.2.1]
    exact change_state_entry_of_eq s n inp.now (by rw [← hupd.1, heq])
  · intro hne
    rw [hupd.2.1]
    exact change_state_entry_of_ne s n inp.now (by rw [← hupd.1]; exact fun h => hne h.symm)
  · intro hne hd
    have hnn : n ≠ s.current_state := by rw [← hupd.1]; exact hne
    rw [hn] at hnn
    exact fsm_next_state_dwell s inp.now dist safe hd hnn

/-- With any threat closer than VERY_CLOSE_DISTANCE the next state is
EVADE, whatever the current state, dwell timer or obstacle layout. -/
theorem fsm_update_very_close (s : FSMState) (inp : TickInput)
    (h : distance inp.playerPos.1 inp.playerPos.2 inp.defensePos.1 inp.defensePos.2 <
      VERY_CLOSE_DISTANCE) :
    (fsm_update s inp).1.current_state = DefenseState.EVADE := by
  set dist := distance inp.playerPos.1 inp.playerPos.2 inp.defensePos.1 inp.defensePos.2
  set safe := is_safe inp.defensePos inp.playerPos inp.obstacles
  have hn : fsm_next_state s inp.now dist safe = DefenseState.EVADE :=
    fsm_next_state_evade s inp.now dist safe h
  set s1 := change_state s (fsm_next_state s inp.now dist safe) inp.now with hs1
  have hs1cur : s1.current_state = DefenseState.EVADE :=
    (change_state_current s (fsm_next_state s inp.now dist safe) inp.now).trans hn
  have hdisp : fsm_dispatch s1 inp =
      (s1, handle_evade inp.defensePos inp.playerPos inp.width) := by
    unfold fsm_dispatch
    rw [hs1cur]
  simp only [fsm_update]
  rw [← hs1, hdisp]
  split_ifs with hcon
  · cases find_best_hiding_spot inp.defensePos inp.playerPos inp.obstacles <;> exact hs1cur
  · exact hs1cur

theorem fsm_after_cons (s0 : FSMState) (inp : TickInput) (rest : List TickInput) :
    fsm_after s0 (inp :: rest) = fsm_after (fsm_update s0 inp).1 rest := rfl

theorem fsm_after_ok (s0 : FSMState) (l : List TickInput) (hok : StateOK s0) :
    StateOK (fsm_after s0 l) ∧
    (fsm_after s0 l).min_state_time = s0.min_state_time := by
  induction l generalizing s0 with
  | nil => exact ⟨hok, rfl⟩
  | cons inp rest ih =>
    rw [fsm_after_cons]
    have hstep := fsm_update_step s0 inp hok
    have hrec := ih (fsm_update s0 inp).1 hstep.1
    exact ⟨hrec.1, hrec.2.trans hstep.2.1⟩

theorem fsm_after_take_succ (s0 : FSMState) (inputs : List TickInput) (k : ℕ)
    (hk : k < inputs.length) :
    fsm_after s0 (inputs.take (k + 1)) =
      (fsm_update (fsm_after s0 (inputs.take k)) inputs[k]).1 := by
  unfold fsm_after
  have h : inputs.take (k + 1) = inputs.take k ++ [inputs[k]] := by
    rw [List.take_succ, List.getElem?_eq_getElem hk]
    rfl
  rw [h, List.foldl_append]
  rfl

theorem inputs_now_mono (inputs : List TickInput)
    (hmono : inputs.Pairwise (fun a b => a.now ≤ b.now)) (i m : ℕ)
    (hi : i < inputs.length) (hm : m < inputs.length) (him : i < m) :
    inputs[i].now ≤ inputs[m].now := by
  rw [List.pairwise_iff_getElem] at hmono
  exact hmono i m hi hm him

/-- After a state change at step i, the dwell timer of every later prefix
state is at least the time of step i. -/
theorem fsm_entry_ge (s0 : FSMState) (inputs : List TickInput) (hok : StateOK s0)
    (hmono : inputs.Pairwise (fun a b => a.now ≤ b.now)) (i : ℕ)
    (hi : i < inputs.length)
    (hchange : (fsm_after s0 (inputs.take (i + 1))).current_state ≠
      (fsm_after s0 (inputs.take i)).current_state) :
    ∀ m, i + 1 ≤ m → m ≤ inputs.length →
      inputs[i].now ≤ (fsm_after s0 (inputs.take m)).state_entry_time := by
  intro m
  induction m with
  | zero => omega
  | succ m ih =>
    intro hm1 hm2
    rcases Nat.lt_or_ge i m with him | him
    · -- m ≥ i + 1: one more step after the already-bounded prefix
      have hmlen : m < inputs.length := by omega
      have hSok := (fsm_after_ok s0 (inputs.take m) hok).1
      have hstep := fsm_update_step (fsm_after s0 (inputs.take m)) inputs[m] hSok
      rw [fsm_after_take_succ s0 inputs m hmlen]
      by_cases hc : (fsm_update (fsm_after s0 (inputs.take m)) inputs[m]).1.current_state =
          (fsm_after s0 (inputs.take m)).current_state
      · rw [hstep.2.2.2.1 hc]
        exact ih (by omega) (by omega)
      · rw [hstep.2.2.2.2.1 hc]
        exact inputs_now_mono inputs hmono i m hi hmlen him
    · -- base case: m = i, so m + 1 = i + 1
      have hmi : m = i := by omega
      subst hmi
      have hSok := (fsm_after_ok s0 (inputs.take m) hok).1
      have hstep := fsm_update_step (fsm_after s0 (inputs.take m)) inputs[m] hSok
      rw [fsm_after_take_succ s0 inputs m hi]
      rw [fsm_after_take_succ s0 inputs m hi] at hchange
      rw [hstep.2.2.2.2.1 hchange]

/-- C3: in any run whose tick times are nondecreasing and in which the
threat never comes within the very-close threshold, two distinct state
changes of the FSM are always at least min_state_time apart (the dwell
window is respected); and — in any single step whatsoever — a threat
closer than VERY_CLOSE_DISTANCE forces the next state to EVADE regardless
of how long the FSM has been in its current state. -/
theorem c3_fsm_dwell_and_override (s0 : FSMState) (inputs : List TickInput)
    (hok : StateOK s0)
    (hmono : inputs.Pairwise (fun a b => a.now ≤ b.now))
    (hvc : ∀ inp ∈ inputs, VERY_CLOSE_DISTANCE ≤
      distance inp.playerPos.1 inp.playerPos.2 inp.defensePos.1 inp.defensePos.2) :
    (∀ i j (hi : i < inputs.length) (hj : j < inputs.length), i < j →
      (fsm_after s0 (inputs.take (i + 1))).current_state ≠
        (fsm_after s0 (inputs.take i)).current_state →
      (fsm_after s0 (inputs.take (j + 1))).current_state ≠
        (fsm_after s0 (inputs.take j)).current_state →
      s0.min_state_time ≤ inputs[j].now - inputs[i].now) ∧
    (∀ (s : FSMState) (inp : TickInput),
      distance inp.playerPos.1 inp.playerPos.2 inp.defensePos.1 inp.defensePos.2 <
        VERY_CLOSE_DISTANCE →
      (fsm_update s inp).1.current_state = DefenseState.EVADE) := by
  constructor
  · intro i j hi hj hij hci hcj
    have hSok := fsm_after_ok s0 (inputs.take j) hok
    have hstep := fsm_update_step (fsm_after s0 (inputs.take j)) inputs[j] hSok.1
    rw [fsm_after_take_succ s0 inputs j hj] at hcj
    have hdwell := hstep.2.2.2.2.2 hcj (hvc inputs[j] (List.getElem_mem hj))
    have hentry := fsm_entry_ge s0 inputs hok hmono i hi hci j hij (le_of_lt hj)
    have hmin : (fsm_after s0 (inputs.take j)).min_state_time = s0.min_state_time := hSok.2
    omega
  · intro s inp h
    exact fsm_update_very_close s inp h

/-! ## Concrete scenario used by the C2 and C3 witnesses

Two thin obstacles on the y = 300 line: obsA near x = 99 (between the
defender at (0,300) and a threat at (104,300)), obsB near x = 495 (right
next to a far threat position (500,300)). -/

def obsA : Obstacle := ⟨98, 299, 2⟩
def obsB : Obstacle := ⟨494, 299, 2⟩

theorem sqrt_eval (x r : ℝ) (hr : 0 ≤ r) (h : x = r ^ 2) : Real.sqrt x = r := by
  rw [h, Real.sqrt_sq hr]

/-- Exhibiting one hit sample proves the LOS check blocked. -/
theorem check_los_true_of_hit (s e : ℝ × ℝ) (obstacles : List Obstacle)
    (k : ℕ) (o : Obstacle) (ho : o ∈ obstacles)
    (h1 : 1 ≤ distance s.1 s.2 e.1 e.2)
    (hk : k < losCount (distance s.1 s.2 e.1 e.2))
    (hhit : o.collidepoint
      (s.1 + (e.1 - s.1) / distance s.1 s.2 e.1 e.2 * (5 * (k + 1)))
      (s.2 + (e.2 - s.2) / distance s.1 s.2 e.1 e.2 * (5 * (k + 1))) = true) :
    check_line_of_sight s e obstacles = true := by
  rw [check_line_of_sight_eval s e obstacles h1, List.any_eq_true]
  exact ⟨k, List.mem_range.mpr hk, List.any_eq_true.mpr ⟨o, ho, hhit⟩⟩

theorem safe_def_near : is_safe (0, 300) (104, 300) [obsA, obsB] = true := by
  unfold is_safe
  have hd : distance (104 : ℝ) 300 0 300 = 104 :=
    distance_eval _ _ _ _ _ (by norm_num) (by norm_num)
  apply check_los_true_of_hit (104, 300) (0, 300) [obsA, obsB] 0 obsA (by simp)
  · simp only
    rw [hd]
    norm_num
  · simp only
    rw [hd, losCount_eq 104 20 (by norm_num) (by norm_num)]
    norm_num
  · simp only
    rw [hd]
    simp only [Obstacle.collidepoint, obsA, decide_eq_true_eq]
    push_cast
    norm_num

theorem safe_def_far : is_safe (0, 300) (500, 300) [obsA, obsB] = true := by
  unfold is_safe
  have hd : distance (500 : ℝ) 300 0 300 = 500 :=
    distance_eval _ _ _ _ _ (by norm_num) (by norm_num)
  apply check_los_true_of_hit (500, 300) (0, 300) [obsA, obsB] 0 obsB (by simp)
  · simp only
    rw [hd]
    norm_num
  · simp only
    rw [hd, losCount_eq 500 99 (by norm_num) (by norm_num)]
    norm_num
  · simp only
    rw [hd]
    simp only [Obstacle.collidepoint, obsB, decide_eq_true_eq]
    push_cast
    norm_num

theorem hide_candidate_obsA :
    hide_candidate_score (0, 300) (104, 300) 104 obsA = some (obsA, 59.4) := by
  have hcen : obsA.center = (99, 300) := by decide
  have hd1 : distance 0 300 (99 : ℝ) 300 = 99 :=
    distance_eval _ _ _ _ _ (by norm_num) (by norm_num)
  have hd2 : distance 104 300 (99 : ℝ) 300 = 5 :=
    distance_eval _ _ _ _ _ (by norm_num) (by norm_num)
  have hm1 : Real.sqrt (((104 : ℝ) - 0) ^ 2 + ((300 : ℝ) - 300) ^ 2) = 104 :=
    sqrt_eval _ _ (by norm_num) (by norm_num)
  have hm2 : Real.sqrt (((99 : ℝ) - 0) ^ 2 + ((300 : ℝ) - 300) ^ 2) = 99 :=
    sqrt_eval _ _ (by norm_num) (by norm_num)
  simp only [hide_candidate_score, hcen]
  push_cast
  rw [hd1, hd2, hm1, hm2]
  rw [if_neg (by rw [HIDE_TRIGGER_DISTANCE]; norm_num)]
  rw [if_pos (Or.inl (by norm_num))]
  rw [if_pos (by norm_num)]
  rw [show (((104 : ℝ) - 0) * (99 - 0) + (300 - 300) * (300 - 300)) / (104 * 99) = 1 by
    norm_num]
  rw [min_self, max_eq_right (by norm_num : (-1 : ℝ) ≤ 1), Real.arccos_one, zero_mul]
  rw [OBSTACLE_SORT_WEIGHT_DIST, OBSTACLE_SORT_WEIGHT_ANGLE]
  norm_num

theorem hide_candidate_obsB :
    hide_candidate_score (0, 300) (104, 300) 104 obsB = none := by
  have hcen : obsB.center = (495, 300) := by decide
  have hd1 : distance 0 300 (495 : ℝ) 300 = 495 :=
    distance_eval _ _ _ _ _ (by norm_num) (by norm_num)
  have hd2 : distance 104 300 (495 : ℝ) 300 = 391 :=
    distance_eval _ _ _ _ _ (by norm_num) (by norm_num)
  simp only [hide_candidate_score, hcen]
  push_cast
  rw [hd1, hd2]
  rw [if_neg (by rw [HIDE_TRIGGER_DISTANCE]; norm_num)]
  rw [if_neg (by push_neg; constructor <;> norm_num)]

theorem safe_spot : is_safe (38, 300) (104, 300) [obsA, obsB] = true := by
  unfold is_safe
  have hd : distance (104 : ℝ) 300 38 300 = 66 :=
    distance_eval _ _ _ _ _ (by norm_num) (by norm_num)
  apply check_los_true_of_hit (104, 300) (38, 300) [obsA, obsB] 0 obsA (by simp)
  · simp only
    rw [hd]
    norm_num
  · simp only
    rw [hd, losCount_eq 66 13 (by norm_num) (by norm_num)]
    norm_num
  · simp only
    rw [hd]
    simp only [Obstacle.collidepoint, obsA, decide_eq_true_eq]
    push_cast
    norm_num

theorem hide_spot_obsA :
    hide_spot_of_candidate (0, 300) (104, 300) [obsA, obsB] (obsA, 59.4) =
      some ((38, 300), 38) := by
  have hcen : obsA.center = (99, 300) := by decide
  have hn : normalize_vector ((99 : ℝ) - 104) ((300 : ℝ) - 300) = (-5 / 5, 0 / 5) := by
    rw [show ((99 : ℝ) - 104) = -5 by norm_num, show ((300 : ℝ) - 300) = 0 by norm_num]
    exact normalize_eval (-5) 0 5 (by norm_num) (by norm_num)
  have hdist : distance 0 300 (38 : ℝ) 300 = 38 :=
    distance_eval _ _ _ _ _ (by norm_num) (by norm_num)
  simp only [hide_spot_of_candidate, hcen]
  push_cast
  rw [hn]
  rw [show ((obsA.size : ℕ) : ℝ) = 2 by norm_num [obsA]]
  dsimp only
  rw [show ((99 : ℝ) + -5 / 5 * ((2 : ℝ) / 2 + BUFFER_BEHIND_OBSTACLE)) = 38 by
    rw [BUFFER_BEHIND_OBSTACLE, CAR_HEIGHT]; norm_num]
  rw [show ((300 : ℝ) + 0 / 5 * ((2 : ℝ) / 2 + BUFFER_BEHIND_OBSTACLE)) = 300 by norm_num]
  rw [if_pos (by rw [SCREEN_WIDTH, SCREEN_HEIGHT]; norm_num)]
  rw [if_pos safe_spot, hdist]

theorem fbhs_eval :
    find_best_hiding_spot (0, 300) (104, 300) [obsA, obsB] = some (38, 300) := by
  have hd0 : distance (104 : ℝ) 300 0 300 = 104 :=
    distance_eval _ _ _ _ _ (by norm_num) (by norm_num)
  simp only [find_best_hiding_spot]
  rw [show distance (104, (300:ℝ)).1 (104, (300:ℝ)).2 (0, (300:ℝ)).1 (0, (300:ℝ)).2 = 104
    from hd0]
  rw [show List.filterMap (hide_candidate_score (0, 300) (104, 300) 104) [obsA, obsB] =
      [(obsA, 59.4)] by
    simp only [List.filterMap_cons, hide_candidate_obsA, hide_candidate_obsB,
      List.filterMap_nil]]
  rw [show List.insertionSort (fun a b : Obstacle × ℝ => a.2 ≤ b.2) [(obsA, 59.4)] =
      [(obsA, 59.4)] by simp [List.insertionSort]]
  rw [show List.take MAX_HIDE_SEARCH_OBSTACLES [(obsA, (59.4 : ℝ))] = [(obsA, 59.4)] by
    rw [MAX_HIDE_SEARCH_OBSTACLES]; rfl]
  rw [show List.filterMap (hide_spot_of_candidate (0, 300) (104, 300) [obsA, obsB])
      [(obsA, 59.4)] = [((38, 300), 38)] by
    simp only [List.filterMap_cons, hide_spot_obsA, List.filterMap_nil]]
  rw [show List.insertionSort (fun a b : (ℝ × ℝ) × ℝ => a.2 ≤ b.2) [((38, 300), 38)] =
      [((38, 300), 38)] by simp [List.insertionSort]]
  rfl

/-- C2 witness: in the two-obstacle scenario the search returns (38, 300),
and the theorem yields that the line of sight from the threat at (104,300)
to (38,300) is blocked. -/
theorem c2_witness :
    find_best_hiding_spot (0, 300) (104, 300) [obsA, obsB] = some (38, 300) ∧
    check_line_of_sight (104, 300) (38, 300) [obsA, obsB] = true :=
  ⟨fbhs_eval, c2_hiding_spot_blocked (0, 300) (104, 300) [obsA, obsB] (38, 300) fbhs_eval⟩

/-! ## Concrete two-step FSM run for the C3 witness -/

def tick0 : TickInput := ⟨1000, (0, 300), (104, 300), 30, [obsA, obsB]⟩
def tick1 : TickInput := ⟨1600, (0, 300), (500, 300), 30, [obsA, obsB]⟩
def tickClose : TickInput := ⟨2000, (0, 300), (50, 300), 30, []⟩

def fsmAfter0 : FSMState :=
  ⟨DefenseState.HIDE, [], 0, some (38, 300), some (38, 300), 1000, 500⟩

theorem next_state_tick0 :
    fsm_next_state initFSM 1000 104 true = DefenseState.HIDE := by
  unfold fsm_next_state
  rw [if_neg (by rw [VERY_CLOSE_DISTANCE]; norm_num)]
  rw [if_pos (by norm_num [initFSM])]
  rw [if_neg (by simp)]
  rw [if_neg (by simp [initFSM])]
  rw [if_neg (by simp [initFSM])]
  rw [if_neg (by rw [HIDE_TRIGGER_DISTANCE]; norm_num)]
  rw [if_pos ⟨Or.inr rfl, by rw [HIDE_TRIGGER_DISTANCE]; norm_num⟩]

theorem change_state_tick0 :
    change_state initFSM DefenseState.HIDE 1000 =
      ⟨DefenseState.HIDE, [], 0, none, none, 1000, 500⟩ := by
  unfold change_state
  rw [if_pos (by decide : initFSM.current_state ≠ DefenseState.HIDE)]
  rfl

theorem handle_hide_tick0 :
    handle_hide ⟨DefenseState.HIDE, [], 0, none, none, 1000, 500⟩ (0, 300) (104, 300) 30
      [obsA, obsB] =
      (⟨DefenseState.HIDE, [], 0, none, some (38, 300), 1000, 500⟩, (38, 300)) := by
  show hide_find _ _ _ _ _ = _
  unfold hide_find
  rw [fbhs_eval]

theorem step0_eval : (fsm_update initFSM tick0).1 = fsmAfter0 := by
  have hd : distance tick0.playerPos.1 tick0.playerPos.2 tick0.defensePos.1
      tick0.defensePos.2 = 104 := by
    show distance (104 : ℝ) 300 0 300 = 104
    exact distance_eval _ _ _ _ _ (by norm_num) (by norm_num)
  have hsafe : is_safe tick0.defensePos tick0.playerPos tick0.obstacles = true :=
    safe_def_near
  simp only [fsm_update, hd, hsafe]
  rw [show tick0.now = 1000 from rfl, next_state_tick0, change_state_tick0]
  rw [show fsm_dispatch ⟨DefenseState.HIDE, [], 0, none, none, 1000, 500⟩ tick0 =
      (⟨DefenseState.HIDE, [], 0, none, some (38, 300), 1000, 500⟩, (38, 300)) by
    unfold fsm_dispatch
    exact handle_hide_tick0]
  rw [if_neg (fun hcon => hcon.2 rfl)]
  rfl

theorem next_state_tick1 :
    fsm_next_state fsmAfter0 1600 500 true = DefenseState.IDLE := by
  unfold fsm_next_state
  rw [if_neg (by rw [VERY_CLOSE_DISTANCE]; norm_num)]
  rw [if_pos (by norm_num [fsmAfter0])]
  rw [if_neg (by simp)]
  rw [if_pos ⟨rfl, rfl⟩]
  rw [if_pos (by rw [HIDE_TRIGGER_DISTANCE]; norm_num)]
  rw [if_neg (by simp [fsmAfter0])]

theorem step1_eval : (fsm_update fsmAfter0 tick1).1 =
    ⟨DefenseState.IDLE, [], 0, some (0, 300), none, 1600, 500⟩ := by
  have hd : distance tick1.playerPos.1 tick1.playerPos.2 tick1.defensePos.1
      tick1.defensePos.2 = 500 := by
    show distance (500 : ℝ) 300 0 300 = 500
    exact distance_eval _ _ _ _ _ (by norm_num) (by norm_num)
  have hsafe : is_safe tick1.defensePos tick1.playerPos tick1.obstacles = true :=
    safe_def_far
  simp only [fsm_update, hd, hsafe]
  rw [show tick1.now = 1600 from rfl, next_state_tick1]
  rw [show change_state fsmAfter0 DefenseState.IDLE 1600 =
      ⟨DefenseState.IDLE, [], 0, some (38, 300), none, 1600, 500⟩ by
    unfold change_state
    rw [if_pos (by decide : fsmAfter0.current_state ≠ DefenseState.IDLE)]
    rfl]
  rw [show fsm_dispatch ⟨DefenseState.IDLE, [], 0, some (38, 300), none, 1600, 500⟩ tick1 =
      (⟨DefenseState.IDLE, [], 0, some (38, 300), none, 1600, 500⟩, (0, 300)) from rfl]
  rw [if_neg (fun hcon => hcon.2 rfl)]

/-- C3 witness: the dwell theorem applied to the concrete two-step run
(state changes IDLE→HIDE at t=1000 and HIDE→IDLE at t=1600, 600 ≥ 500 ms
apart), and the override applied to a threat 50 units away. -/
theorem c3_witness :
    initFSM.min_state_time ≤ tick1.now - tick0.now ∧
    (fsm_update initFSM tickClose).1.current_state = DefenseState.EVADE := by
  have hrun := c3_fsm_dwell_and_override initFSM [tick0, tick1]
    ⟨by decide, fun h => absurd h (by decide)⟩
    (by
      refine List.Pairwise.cons ?_ (List.pairwise_singleton _ _)
      intro b hb
      rw [List.mem_singleton] at hb
      subst hb
      show (1000 : ℤ) ≤ 1600
      norm_num)
    (by
      intro inp hinp
      rw [VERY_CLOSE_DISTANCE]
      rcases List.mem_cons.mp hinp with h | h
      · subst h
        rw [show distance tick0.playerPos.1 tick0.playerPos.2 tick0.defensePos.1
            tick0.defensePos.2 = 104 from
          distance_eval _ _ _ _ _ (by norm_num) (by norm_num [tick0])]
        norm_num
      · rw [List.mem_singleton] at h
        subst h
        rw [show distance tick1.playerPos.1 tick1.playerPos.2 tick1.defensePos.1
            tick1.defensePos.2 = 500 from
          distance_eval _ _ _ _ _ (by norm_num) (by norm_num [tick1])]
        norm_num)
  constructor
  · have h01 := hrun.1 0 1 (by norm_num) (by norm_num) (by norm_num) ?_ ?_
    · exact h01
    · show (fsm_after initFSM (List.take 1 [tick0, tick1])).current_state ≠
        (fsm_after initFSM (List.take 0 [tick0, tick1])).current_state
      rw [show List.take 1 [tick0, tick1] = [tick0] from rfl,
        show List.take 0 [tick0, tick1] = [] from rfl]
      show (fsm_update initFSM tick0).1.current_state ≠ initFSM.current_state
      rw [step0_eval]
      decide
    · show (fsm_after initFSM (List.take 2 [tick0, tick1])).current_state ≠
        (fsm_after initFSM (List.take 1 [tick0, tick1])).current_state
      rw [show List.take 2 [tick0, tick1] = [tick0, tick1] from rfl,
        show List.take 1 [tick0, tick1] = [tick0] from rfl]
      show (fsm_update (fsm_update initFSM tick0).1 tick1).1.current_state ≠
        (fsm_update initFSM tick0).1.current_state
      rw [step0_eval, step1_eval]
      decide
  · apply hrun.2
    show distance (50 : ℝ) 300 0 300 < VERY_CLOSE_DISTANCE
    rw [show distance (50 : ℝ) 300 0 300 = 50 from
      distance_eval _ _ _ _ _ (by norm_num) (by norm_num), VERY_CLOSE_DISTANCE]
    norm_num

/-! ## A* pathfinder (src/Your Choice/ai/pathfinding.py)

Python accumulates g-costs of 1.0 (straight) and 1.414 (diagonal) and
orders the heap by (f, h, node) with f = g + hypot-heuristic.  Every
priority is therefore of the form (a + √n)/500 with a : ℤ the g-cost
scaled by 500 (1.0 ↦ 500, 1.414 ↦ 707) and n : ℕ the squared heuristic
scaled by 500² — a form with a decidable exact order, so the whole
pathfinder is executable.  The heap is modelled as a list whose pop takes
the (leftmost) minimum of the total lexicographic order, which is
observationally the heapq behaviour (ties of the full key are identical
entries).  Loops are modelled with fuel bounds that dominate the number
of heap pops (each cell enters the closed set at most once and pushes at
most 8 entries), so the fuel-exhaustion branches are unreachable in the
Python semantics; they conservatively return failure. -/

/-- A grid node: integer (column, row). -/
abbrev GridNode : Type := ℤ × ℤ

/-- An exact heap priority a + √n (both already scaled by 500). -/
structure PVal where
  a : ℤ
  n : ℕ
deriving DecidableEq, Repr

namespace PVal

/-- The real number a priority denotes (scaled by 500). -/
noncomputable def toReal (v : PVal) : ℝ := (v.a : ℝ) + Real.sqrt (v.n : ℝ)

/-- Decidable comparison of a1 + √n1 ≤ a2 + √n2 by case analysis and
squaring. -/
def leB (v w : PVal) : Bool :=
  let d : ℤ := w.a - v.a
  let rhsNonneg : Bool := decide (0 ≤ d) || decide (d * d ≤ (w.n : ℤ))
  let e : ℤ := (v.n : ℤ) - (w.n : ℤ) - d * d
  let second : Bool :=
    if 0 ≤ d then decide (e ≤ 0) || decide (e * e ≤ 4 * (d * d) * (w.n : ℤ))
    else decide (e ≤ 0) && decide (4 * (d * d) * (w.n : ℤ) ≤ e * e)
  rhsNonneg && second

/-- Equality of denoted real priorities. -/
def eqB (v w : PVal) : Bool := leB v w && leB w v

end PVal

/-- Lexicographic order on Python int pairs. -/
def nodeLeB (a b : GridNode) : Bool :=
  decide (a.1 < b.1) || (decide (a.1 = b.1) && decide (a.2 ≤ b.2))

/-- A main-loop heap entry (f, h, node); h is stored as its exact square
(comparing √m1 with √m2 is comparing m1 with m2). -/
abbrev AEntry : Type := PVal × ℕ × GridNode

/-- Python tuple comparison of (f, h, node) heap entries. -/
def entryLeB (e1 e2 : AEntry) : Bool :=
  if PVal.eqB e1.1 e2.1 then
    if e1.2.1 = e2.2.1 then nodeLeB e1.2.2 e2.2.2
    else decide (e1.2.1 < e2.2.1)
  else PVal.leB e1.1 e2.1

/-- A nearest-free-cell heap entry (priority, distance, node); the
distance is the scaled exact g-cost. -/
abbrev NEntry : Type := PVal × ℤ × GridNode

/-- Python tuple comparison of (priority, distance, node) entries. -/
def nfcLeB (e1 e2 : NEntry) : Bool :=
  if PVal.eqB e1.1 e2.1 then
    if e1.2.1 = e2.2.1 then nodeLeB e1.2.2 e2.2.2
    else decide (e1.2.1 < e2.2.1)
  else PVal.leB e1.1 e2.1

/-- heappop: remove the least element (leftmost among equals). -/
def popMin {α : Type} (le : α → α → Bool) : List α → Option (α × List α)
  | [] => none
  | x :: xs =>
    match popMin le xs with
    | none => some (x, [])
    | some (m, rest) => if le x m then (x, xs) else (m, x :: rest)

/-- Python dict lookup for association lists with cons-shadowing inserts. -/
def mlookup {α : Type} : List (GridNode × α) → GridNode → Option α
  | [], _ => none
  | (k2, v) :: rest, k => if k = k2 then some v else mlookup rest k

/-- AStar.directions: N, E, S, W, NE, SE, SW, NW. -/
def directions : List (ℤ × ℤ) :=
  [(0, -1), (1, 0), (0, 1), (-1, 0), (1, -1), (1, 1), (-1, 1), (-1, -1)]

/-- AStar.move_costs, scaled by 500: straight 1.0 ↦ 500, diagonal
1.414 ↦ 707. -/
def move_cost (d : ℤ × ℤ) : ℤ := if d.1 = 0 ∨ d.2 = 0 then 500 else 707

/-- The square of AStar.heuristic (Euclidean distance in grid units). -/
def heuristic_sq (a b : GridNode) : ℕ := ((a.1 - b.1) ^ 2 + (a.2 - b.2) ^ 2).toNat

/-- The f/priority value g + √m, in the scaled representation. -/
def mkPrio (g : ℤ) (m : ℕ) : PVal := ⟨g, 250000 * m⟩

/-- utils.world_to_grid: floor division of world coordinates by the cell
size. -/
def world_to_grid (p : ℚ × ℚ) : GridNode := (⌊p.1 / GRID_SIZE⌋, ⌊p.2 / GRID_SIZE⌋)

/-- utils.grid_to_world: the cell centre (an exact integer point). -/
def grid_to_world (n : GridNode) : ℚ × ℚ :=
  (((n.1 * 20 + 10 : ℤ) : ℚ), ((n.2 * 20 + 10 : ℤ) : ℚ))

/-- The clamping of a node to the grid bounds in AStar.find_path. -/
def clampNode (w h : ℕ) (n : GridNode) : GridNode :=
  (max 0 (min n.1 ((w : ℤ) - 1)), max 0 (min n.2 ((h : ℤ) - 1)))

/-- One expansion step of AStar._find_nearest_free_cell: push all
in-bounds unvisited neighbours (blocked ones too). -/
def nfcExpand (w h : ℕ) (target : GridNode) (x y : ℤ) (dist : ℤ)
    (acc : List NEntry × (GridNode → Bool)) (d : ℤ × ℤ) :
    List NEntry × (GridNode → Bool) :=
  let nx := x + d.1
  let ny := y + d.2
  if 0 ≤ nx ∧ nx < (w : ℤ) ∧ 0 ≤ ny ∧ ny < (h : ℤ) ∧ acc.2 (nx, ny) = false then
    let ndist := dist + move_cost d
    (acc.1 ++ [(mkPrio ndist (heuristic_sq (nx, ny) target), ndist, (nx, ny))],
     fun m => if m = (nx, ny) then true else acc.2 m)
  else acc

/-- The loop of AStar._find_nearest_free_cell: pop by (priority, distance,
node); return the first free cell; beyond the search radius only pop. -/
def nfcLoop (w h : ℕ) (grid : ℤ → ℤ → Bool) (target : GridNode) (radius : ℤ) :
    ℕ → List NEntry → (GridNode → Bool) → Option GridNode
  | 0, _, _ => none
  | fuel + 1, queue, visited =>
    match popMin nfcLeB queue with
    | none => none
    | some (e, rest) =>
      let x := e.2.2.1
      let y := e.2.2.2
      if grid x y = false then some (x, y)
      else if 500 * radius ≤ e.2.1 then nfcLoop w h grid target radius fuel rest visited
      else
        let acc := directions.foldl (nfcExpand w h target x y e.2.1) (rest, visited)
        nfcLoop w h grid target radius fuel acc.1 acc.2

/-- AStar._find_nearest_free_cell. -/
def find_nearest_free_cell (w h : ℕ) (grid : ℤ → ℤ → Bool)
    (startNode target : GridNode) : Option GridNode :=
  let radius : ℤ := ((max w h) / 2 : ℕ)
  nfcLoop w h grid target radius (w * h + 2)
    [(mkPrio 0 (heuristic_sq startNode target), 0, startNode)]
    (fun m => decide (m = startNode))

/-- The walk along came_from parent pointers in AStar._reconstruct_path
(the Python while loop; the fuel passed by reconstruct_path provably
dominates the chain length). -/
def reconChain (cf : List (GridNode × Option GridNode)) :
    ℕ → Option GridNode → List GridNode
  | 0, _ => []
  | _ + 1, none => []
  | fuel + 1, some nd =>
    nd :: reconChain cf fuel
      (match mlookup cf nd with
       | some (some p) => some p
       | _ => none)

/-- AStar._reconstruct_path: walk back to the start, convert to world
coordinates, and reverse. -/
def reconstruct_path (cf : List (GridNode × Option GridNode)) (endNode : GridNode) :
    List (ℚ × ℚ) :=
  ((reconChain cf (2 * cf.length + 2) (some endNode)).map grid_to_world).reverse

/-- One neighbour relaxation of the A* main loop: bounds check, obstacle
check, tentative-g improvement check, then update came_from and g and
push. -/
def astarExpand (w h : ℕ) (grid : ℤ → ℤ → Bool) (endNode : GridNode)
    (cur : GridNode) (gcur : ℤ)
    (acc : List AEntry × List (GridNode × Option GridNode) × List (GridNode × ℤ))
    (d : ℤ × ℤ) :
    List AEntry × List (GridNode × Option GridNode) × List (GridNode × ℤ) :=
  let nb : GridNode := (cur.1 + d.1, cur.2 + d.2)
  if 0 ≤ nb.1 ∧ nb.1 < (w : ℤ) ∧ 0 ≤ nb.2 ∧ nb.2 < (h : ℤ) then
    if grid nb.1 nb.2 then acc
    else
      let tg := gcur + move_cost d
      let better : Bool :=
        match mlookup acc.2.2 nb with
        | none => true
        | some gv => decide (tg < gv)
      if better then
        let m := heuristic_sq nb endNode
        (acc.1 ++ [(mkPrio tg m, m, nb)], (nb, some cur) :: acc.2.1, (nb, tg) :: acc.2.2)
      else acc
  else acc

/-- The A* main loop: pop by (f, h, node); reconstruct on reaching the
goal; skip closed nodes; otherwise close and expand. -/
def astarLoop (w h : ℕ) (grid : ℤ → ℤ → Bool) (endNode : GridNode) :
    ℕ → List AEntry → (GridNode → Bool) → List (GridNode × Option GridNode) →
      List (GridNode × ℤ) → List (ℚ × ℚ)
  | 0, _, _, _, _ => []
  | fuel + 1, open_, closed, cf, g =>
    match popMin entryLeB open_ with
    | none => []
    | some (e, rest) =>
      let cur := e.2.2
      if cur = endNode then reconstruct_path cf cur
      else if closed cur then astarLoop w h grid endNode fuel rest closed cf g
      else
        let closed2 : GridNode → Bool := fun m => if m = cur then true else closed m
        let gcur := (mlookup g cur).getD 0
        let acc := directions.foldl (astarExpand w h grid endNode cur gcur) (rest, cf, g)
        astarLoop w h grid endNode fuel acc.1 closed2 acc.2.1 acc.2.2

/-- AStar.find_path: clamp the endpoints, recover blocked endpoints via
the nearest-free-cell search (failure gives the empty path), return the
single cell centre when the adjusted endpoints coincide, otherwise run
A*. -/
def find_path (w h : ℕ) (grid : ℤ → ℤ → Bool) (startPos endPos : ℚ × ℚ) :
    List (ℚ × ℚ) :=
  let startNode0 := clampNode w h (world_to_grid startPos)
  let endNode0 := clampNode w h (world_to_grid endPos)
  match (if grid startNode0.1 startNode0.2 then
      find_nearest_free_cell w h grid startNode0 endNode0
    else some startNode0) with
  | none => []
  | some startNode =>
    match (if grid endNode0.1 endNode0.2 then
        find_nearest_free_cell w h grid endNode0 startNode
      else some endNode0) with
    | none => []
    | some endNode =>
      if startNode = endNode then [grid_to_world endNode]
      else
        let m := heuristic_sq startNode endNode
        astarLoop w h grid endNode (8 * w * h + 8)
          [(mkPrio 0 m, m, startNode)]
          (fun _ => false)
          [(startNode, none)]
          [(startNode, 0)]

/-! ## Support lemmas for the pathfinder -/

theorem popMin_mem {α : Type} (le : α → α → Bool) :
    ∀ (l : List α) (e : α) (rest : List α), popMin le l = some (e, rest) → e ∈ l := by
  intro l
  induction l with
  | nil => intro e rest h; simp [popMin] at h
  | cons x xs ih =>
    intro e rest h
    unfold popMin at h
    cases hm : popMin le xs with
    | none =>
      rw [hm] at h
      rw [Option.some_inj] at h
      rw [Prod.mk.injEq] at h
      exact h.1 ▸ List.mem_cons_self x xs
    | some p =>
      rw [hm] at h
      by_cases hle : le x p.1 = true
      · simp only [hle, if_true] at h
        rw [Option.some_inj, Prod.mk.injEq] at h
        exact h.1 ▸ List.mem_cons_self x xs
      · simp only [hle, Bool.false_eq_true, if_false] at h
        rw [Option.some_inj, Prod.mk.injEq] at h
        exact h.1 ▸ List.mem_cons_of_mem x (ih p.1 p.2 hm)

theorem popMin_rest_subset {α : Type} (le : α → α → Bool) :
    ∀ (l : List α) (e : α) (rest : List α), popMin le l = some (e, rest) →
      ∀ x ∈ rest, x ∈ l := by
  intro l
  induction l with
  | nil => intro e rest h; simp [popMin] at h
  | cons x xs ih =>
    intro e rest h y hy
    unfold popMin at h
    cases hm : popMin le xs with
    | none =>
      rw [hm] at h
      rw [Option.some_inj, Prod.mk.injEq] at h
      rw [← h.2] at hy
      simp at hy
    | some p =>
      rw [hm] at h
      by_cases hle : le x p.1 = true
      · simp only [hle, if_true] at h
        rw [Option.some_inj, Prod.mk.injEq] at h
        rw [← h.2] at hy
        exact List.mem_cons_of_mem x hy
      · simp only [hle, Bool.false_eq_true, if_false] at h
        rw [Option.some_inj, Prod.mk.injEq] at h
        rw [← h.2] at hy
        rcases List.mem_cons.mp hy with hxy | hxy
        · exact hxy ▸ List.mem_cons_self x xs
        · exact List.mem_cons_of_mem x (ih p.1 p.2 hm y hxy)

/-- The nearest-free-cell loop only ever returns free cells. -/
theorem nfcLoop_free (w h : ℕ) (grid : ℤ → ℤ → Bool) (target : GridNode) (radius : ℤ) :
    ∀ (fuel : ℕ) (queue : List NEntry) (visited : GridNode → Bool) (n : GridNode),
      nfcLoop w h grid target radius fuel queue visited = some n →
      grid n.1 n.2 = false := by
  intro fuel
  induction fuel with
  | zero => intro queue visited n h; simp [nfcLoop] at h
  | succ fuel ih =>
    intro queue visited n h
    unfold nfcLoop at h
    cases hm : popMin nfcLeB queue with
    | none => rw [hm] at h; simp at h
    | some p =>
      rw [hm] at h
      by_cases hfree : grid p.1.2.2.1 p.1.2.2.2 = false
      · simp only [hfree, if_true] at h
        rw [Option.some_inj] at h
        rw [← h]
        exact hfree
      · simp only [hfree, if_false] at h
        rw [if_neg (by simp [hfree])] at h
        split_ifs at h with hrad
        · exact ih _ _ n h
        · exact ih _ _ n h

theorem find_nearest_free_cell_free (w h : ℕ) (grid : ℤ → ℤ → Bool)
    (startNode target n : GridNode)
    (hfind : find_nearest_free_cell w h grid startNode target = some n) :
    grid n.1 n.2 = false :=
  nfcLoop_free w h grid target _ _ _ _ n hfind

theorem mlookup_cons {α : Type} (k2 : GridNode) (v : α) (m : List (GridNode × α))
    (k : GridNode) :
    mlookup ((k2, v) :: m) k = if k = k2 then some v else mlookup m k := rfl

/-- The came_from / g_score invariant of the A* main loop: the start maps
to no parent (and is the only such node) with g-score 0; every parent
pointer points to a recorded node and decreases the g-score by at least a
full straight step; every open entry's node is recorded; g-scores are
nonnegative and bounded by the number of recorded relaxations. -/
def AInv (open_ : List AEntry) (cf : List (GridNode × Option GridNode))
    (g : List (GridNode × ℤ)) (startN : GridNode) : Prop :=
  mlookup cf startN = some none ∧
  mlookup g startN = some 0 ∧
  (∀ n, mlookup cf n = some none → n = startN) ∧
  (∀ n p, mlookup cf n = some (some p) →
    (∃ xp, mlookup cf p = some xp) ∧
    ∃ gp gn, mlookup g p = some gp ∧ mlookup g n = some gn ∧ gp + 500 ≤ gn) ∧
  (∀ e ∈ open_, (∃ x, mlookup cf e.2.2 = some x) ∧ ∃ gv, mlookup g e.2.2 = some gv) ∧
  (∀ n gv, mlookup g n = some gv → 0 ≤ gv ∧ gv ≤ 707 * (g.length : ℤ)) ∧
  cf.length = g.length

theorem AInv_open_subset (open_ open2 : List AEntry)
    (cf : List (GridNode × Option GridNode)) (g : List (GridNode × ℤ))
    (startN : GridNode) (hinv : AInv open_ cf g startN)
    (hsub : ∀ x ∈ open2, x ∈ open_) : AInv open2 cf g startN :=
  ⟨hinv.1, hinv.2.1, hinv.2.2.1, hinv.2.2.2.1,
   fun e he => hinv.2.2.2.2.1 e (hsub e he), hinv.2.2.2.2.2.1, hinv.2.2.2.2.2.2⟩

theorem directions_ok : ∀ d ∈ directions,
    (d.1 ≠ 0 ∨ d.2 ≠ 0) ∧ 500 ≤ move_cost d ∧ move_cost d ≤ 707 := by decide

/-- A single neighbour relaxation preserves the invariant (and the
recorded facts about the node being expanded). -/
theorem astarExpand_inv (w h : ℕ) (grid : ℤ → ℤ → Bool) (endN : GridNode)
    (cur : GridNode) (gcur : ℤ) (startN : GridNode)
    (acc : List AEntry × List (GridNode × Option GridNode) × List (GridNode × ℤ))
    (d : ℤ × ℤ) (hdne : d.1 ≠ 0 ∨ d.2 ≠ 0)
    (hc1 : 500 ≤ move_cost d) (hc2 : move_cost d ≤ 707)
    (hinv : AInv acc.1 acc.2.1 acc.2.2 startN)
    (hcurg : mlookup acc.2.2 cur = some gcur)
    (hcurcf : ∃ xc, mlookup acc.2.1 cur = some xc) :
    AInv (astarExpand w h grid endN cur gcur acc d).1
      (astarExpand w h grid endN cur gcur acc d).2.1
      (astarExpand w h grid endN cur gcur acc d).2.2 startN ∧
    mlookup (astarExpand w h grid endN cur gcur acc d).2.2 cur = some gcur ∧
    ∃ xc, mlookup (astarExpand w h grid endN cur gcur acc d).2.1 cur = some xc := by
  unfold astarExpand
  by_cases hb : 0 ≤ cur.1 + d.1 ∧ cur.1 + d.1 < (w : ℤ) ∧ 0 ≤ cur.2 + d.2 ∧
      cur.2 + d.2 < (h : ℤ)
  · rw [if_pos hb]
    by_cases hblk : grid (cur.1 + d.1) (cur.2 + d.2) = true
    · rw [if_pos hblk]
      exact ⟨hinv, hcurg, hcurcf⟩
    · rw [if_neg hblk]
      set nb : GridNode := (cur.1 + d.1, cur.2 + d.2) with hnb
      set tg : ℤ := gcur + move_cost d with htg
      obtain ⟨hI1, hI2, hI3, hI4, hI5, hI6, hI7⟩ := hinv
      have hnbcur : cur ≠ nb := by
        intro heq
        have h1 : cur.1 = cur.1 + d.1 := congrArg Prod.fst heq
        have h2 : cur.2 = cur.2 + d.2 := congrArg Prod.snd heq
        rcases hdne with hz | hz
        · exact hz (by omega)
        · exact hz (by omega)
      have hgcur_bounds := hI6 cur gcur hcurg
      have htgpos : 500 ≤ tg := by rw [htg]; linarith [hgcur_bounds.1]
      cases hlk : mlookup acc.2.2 nb with
      | none =>
        -- no recorded g: always relax
        simp only [hlk, if_pos]
        have hnbstart : nb ≠ startN := fun hcon => by
          rw [hcon] at hlk
          rw [hI2] at hlk
          exact Option.noConfusion hlk
        refine ⟨⟨?_, ?_, ?_, ?_, ?_, ?_, ?_⟩, ?_, ?_⟩
        · rw [mlookup_cons, if_neg (fun hc => hnbstart hc.symm)]
          exact hI1
        · rw [mlookup_cons, if_neg (fun hc => hnbstart hc.symm)]
          exact hI2
        · intro n hn
          rw [mlookup_cons] at hn
          split_ifs at hn with hneq
          · exact absurd hn (by simp)
          · exact hI3 n hn
        · intro n p hnp
          rw [mlookup_cons] at hnp
          split_ifs at hnp with hneq
          · rw [Option.some_inj, Option.some_inj] at hnp
            subst hnp
            subst hneq
            refine ⟨⟨_, by rw [mlookup_cons, if_neg hnbcur]; exact hcurcf.choose_spec⟩,
              gcur, tg, ?_, ?_, ?_⟩
            · rw [mlookup_cons, if_neg hnbcur]
              exact hcurg
            · rw [mlookup_cons, if_pos rfl]
            · rw [htg]; linarith
          · obtain ⟨⟨xp, hxp⟩, gp, gn, hgp, hgn, hle⟩ := hI4 n p hnp
            refine ⟨⟨?_, ?_⟩, ?_⟩
            · exact if hpb : p = nb then some cur else xp
            · by_cases hpb : p = nb
              · simp only [mlookup_cons, if_pos hpb, dif_pos hpb]
              · simp only [mlookup_cons, if_neg hpb, dif_neg hpb]
                exact hxp
            · by_cases hpb : p = nb
              · rw [hpb] at hgp
                rw [hlk] at hgp
                exact Option.noConfusion hgp
              · refine ⟨gp, gn, ?_, ?_, hle⟩
                · rw [mlookup_cons, if_neg hpb]
                  exact hgp
                · rw [mlookup_cons, if_neg hneq]
                  exact hgn
        · intro e he
          rcases List.mem_append.mp he with hold | hnew
          · obtain ⟨⟨x, hx⟩, gv, hgv⟩ := hI5 e hold
            refine ⟨⟨?_, ?_⟩, ?_⟩
            · exact if hq : e.2.2 = nb then some cur else x
            · by_cases hq : e.2.2 = nb
              · simp only [mlookup_cons, if_pos hq, dif_pos hq]
              · simp only [mlookup_cons, if_neg hq, dif_neg hq]
                exact hx
            · by_cases hq : e.2.2 = nb
              · exact ⟨tg, by rw [mlookup_cons, if_pos hq]⟩
              · exact ⟨gv, by rw [mlookup_cons, if_neg hq]; exact hgv⟩
          · rw [List.mem_singleton] at hnew
            subst hnew
            exact ⟨⟨some cur, by rw [mlookup_cons, if_pos rfl]⟩,
              tg, by rw [mlookup_cons, if_pos rfl]⟩
        · intro n gv hgv
          rw [mlookup_cons] at hgv
          rw [List.length_cons]
          split_ifs at hgv with hq
          · rw [Option.some_inj] at hgv
            subst hgv
            constructor
            · linarith
            · rw [htg]
              push_cast
              linarith [hgcur_bounds.2]
          · have := hI6 n gv hgv
            constructor
            · exact this.1
            · push_cast
              linarith [this.2]
        · rw [List.length_cons, List.length_cons, hI7]
        · rw [mlookup_cons, if_neg hnbcur]
          exact hcurg
        · obtain ⟨xc, hxc⟩ := hcurcf
          exact ⟨xc, by rw [mlookup_cons, if_neg hnbcur]; exact hxc⟩
      | some gv =>
        by_cases hbet : tg < gv
        · simp only [hlk, if_pos (decide_eq_true hbet)]
          have hnbstart : nb ≠ startN := fun hcon => by
            rw [hcon] at hlk
            rw [hI2] at hlk
            rw [Option.some_inj] at hlk
            subst hlk
            linarith
          refine ⟨⟨?_, ?_, ?_, ?_, ?_, ?_, ?_⟩, ?_, ?_⟩
          · rw [mlookup_cons, if_neg (fun hc => hnbstart hc.symm)]
            exact hI1
          · rw [mlookup_cons, if_neg (fun hc => hnbstart hc.symm)]
            exact hI2
          · intro n hn
            rw [mlookup_cons] at hn
            split_ifs at hn with hneq
            · exact absurd hn (by simp)
            · exact hI3 n hn
          · intro n p hnp
            rw [mlookup_cons] at hnp
            split_ifs at hnp with hneq
            · rw [Option.some_inj, Option.some_inj] at hnp
              subst hnp
              subst hneq
              refine ⟨⟨_, by rw [mlookup_cons, if_neg hnbcur]; exact hcurcf.choose_spec⟩,
                gcur, tg, ?_, ?_, ?_⟩
              · rw [mlookup_cons, if_neg hnbcur]
                exact hcurg
              · rw [mlookup_cons, if_pos rfl]
              · rw [htg]; linarith
            · obtain ⟨⟨xp, hxp⟩, gp, gn, hgp, hgn, hle⟩ := hI4 n p hnp
              refine ⟨⟨?_, ?_⟩, ?_⟩
              · exact if hpb : p = nb then some cur else xp
              · by_cases hpb : p = nb
                · simp only [mlookup_cons, if_pos hpb, dif_pos hpb]
                · simp only [mlookup_cons, if_neg hpb, dif_neg hpb]
                  exact hxp
              · by_cases hpb : p = nb
                · refine ⟨tg, gn, ?_, ?_, ?_⟩
                  · rw [mlookup_cons, if_pos hpb]
                  · rw [mlookup_cons, if_neg hneq]
                    exact hgn
                  · rw [hpb] at hgp
                    rw [hlk] at hgp
                    rw [Option.some_inj] at hgp
                    subst hgp
                    linarith
                · refine ⟨gp, gn, ?_, ?_, hle⟩
                  · rw [mlookup_cons, if_neg hpb]
                    exact hgp
                  · rw [mlookup_cons, if_neg hneq]
                    exact hgn
          · intro e he
            rcases List.mem_append.mp he with hold | hnew
            · obtain ⟨⟨x, hx⟩, gv2, hgv2⟩ := hI5 e hold
              refine ⟨⟨?_, ?_⟩, ?_⟩
              · exact if hq : e.2.2 = nb then some cur else x
              · by_cases hq : e.2.2 = nb
                · simp only [mlookup_cons, if_pos hq, dif_pos hq]
                · simp only [mlookup_cons, if_neg hq, dif_neg hq]
                  exact hx
              · by_cases hq : e.2.2 = nb
                · exact ⟨tg, by rw [mlookup_cons, if_pos hq]⟩
                · exact ⟨gv2, by rw [mlookup_cons, if_neg hq]; exact hgv2⟩
            · rw [List.mem_singleton] at hnew
              subst hnew
              exact ⟨⟨some cur, by rw [mlookup_cons, if_pos rfl]⟩,
                tg, by rw [mlookup_cons, if_pos rfl]⟩
          · intro n gv2 hgv2
            rw [mlookup_cons] at hgv2
            rw [List.length_cons]
            split_ifs at hgv2 with hq
            · rw [Option.some_inj] at hgv2
              subst hgv2
              constructor
              · linarith
              · rw [htg]
                push_cast
                linarith [hgcur_bounds.2]
            · have := hI6 n gv2 hgv2
              constructor
              · exact this.1
              · push_cast
                linarith [this.2]
          · rw [List.length_cons, List.length_cons, hI7]
          · rw [mlookup_cons, if_neg hnbcur]
            exact hcurg
          · obtain ⟨xc, hxc⟩ := hcurcf
            exact ⟨xc, by rw [mlookup_cons, if_neg hnbcur]; exact hxc⟩
        · have hd : decide (tg < gv) = false := decide_eq_false hbet
          simp only [hlk, hd, Bool.false_eq_true, if_false]
          exact ⟨⟨hI1, hI2, hI3, hI4, hI5, hI6, hI7⟩, hcurg, hcurcf⟩
  · rw [if_neg hb]
    exact ⟨hinv, hcurg, hcurcf⟩

/-- Expanding all neighbours of a recorded node preserves the invariant. -/
theorem astarFold_inv (w h : ℕ) (grid : ℤ → ℤ → Bool) (endN : GridNode)
    (cur : GridNode) (gcur : ℤ) (startN : GridNode) :
    ∀ (l : List (ℤ × ℤ)),
      (∀ d ∈ l, (d.1 ≠ 0 ∨ d.2 ≠ 0) ∧ 500 ≤ move_cost d ∧ move_cost d ≤ 707) →
      ∀ acc : List AEntry × List (GridNode × Option GridNode) × List (GridNode × ℤ),
        AInv acc.1 acc.2.1 acc.2.2 startN →
        mlookup acc.2.2 cur = some gcur →
        (∃ xc, mlookup acc.2.1 cur = some xc) →
        AInv (l.foldl (astarExpand w h grid endN cur gcur) acc).1
          (l.foldl (astarExpand w h grid endN cur gcur) acc).2.1
          (l.foldl (astarExpand w h grid endN cur gcur) acc).2.2 startN := by
  intro l
  induction l with
  | nil =>
    intro _ acc hinv _ _
    exact hinv
  | cons d rest ih =>
    intro hl acc hinv hcurg hcurcf
    have hd := hl d (List.mem_cons_self d rest)
    obtain ⟨hinv2, hcurg2, hcurcf2⟩ :=
      astarExpand_inv w h grid endN cur gcur startN acc d hd.1 hd.2.1 hd.2.2
        hinv hcurg hcurcf
    rw [List.foldl_cons]
    exact ih (fun d2 hd2 => hl d2 (List.mem_cons_of_mem d hd2))
      (astarExpand w h grid endN cur gcur acc d) hinv2 hcurg2 hcurcf2

theorem reconChain_notail (cf : List (GridNode × Option GridNode)) :
    ∀ k : ℕ, reconChain cf k none = [] := by
  intro k
  cases k <;> rfl

/-- Walking the came-from chain from any recorded node ends at the start
node, given enough fuel (each parent hop decreases the g-score by at
least 500, and g-scores are nonnegative). -/
theorem reconChain_getLast (cf : List (GridNode × Option GridNode))
    (g : List (GridNode × ℤ)) (startN : GridNode)
    (hI3 : ∀ n, mlookup cf n = some none → n = startN)
    (hI4 : ∀ n p, mlookup cf n = some (some p) →
      (∃ xp, mlookup cf p = some xp) ∧
      ∃ gp gn, mlookup g p = some gp ∧ mlookup g n = some gn ∧ gp + 500 ≤ gn)
    (hI6 : ∀ n gv, mlookup g n = some gv → 0 ≤ gv) :
    ∀ (k : ℕ) (n : GridNode) (x : Option GridNode) (gn : ℤ),
      mlookup cf n = some x → mlookup g n = some gn → gn < 500 * (k : ℤ) →
      (reconChain cf k (some n)).getLast? = some startN := by
  intro k
  induction k with
  | zero =>
    intro n x gn _ hg hlt
    have := hI6 n gn hg
    simp only [Nat.cast_zero, mul_zero] at hlt
    linarith
  | succ k ih =>
    intro n x gn hx hg hlt
    cases x with
    | none =>
      have hns := hI3 n hx
      simp only [reconChain, hx]
      rw [reconChain_notail]
      simp [hns]
    | some p =>
      obtain ⟨⟨xp, hxp⟩, gp, gn2, hgp, hgn2, hdec⟩ := hI4 n p hx
      rw [hg] at hgn2
      rw [Option.some_inj] at hgn2
      subst hgn2
      have hgp_lt : gp < 500 * (k : ℤ) := by
        push_cast at hlt ⊢
        linarith
      have htail := ih p xp gp hxp hgp hgp_lt
      cases k with
      | zero =>
        have := hI6 p gp hgp
        simp only [Nat.cast_zero, mul_zero] at hgp_lt
        linarith
      | succ k2 =>
        simp only [reconChain, hx] at htail ⊢
        rw [List.getLast?_cons_cons]
        exact htail

/-- If the A* main loop returns a non-empty path, its first waypoint is
the world centre of the start node of the invariant. -/
theorem astarLoop_head (w h : ℕ) (grid : ℤ → ℤ → Bool) (endN startN : GridNode) :
    ∀ (fuel : ℕ) (open_ : List AEntry) (closed : GridNode → Bool)
      (cf : List (GridNode × Option GridNode)) (g : List (GridNode × ℤ)),
      AInv open_ cf g startN →
      astarLoop w h grid endN fuel open_ closed cf g ≠ [] →
      (astarLoop w h grid endN fuel open_ closed cf g).head? =
        some (grid_to_world startN) := by
  intro fuel
  induction fuel with
  | zero =>
    intro open_ closed cf g _ hne
    exact absurd rfl hne
  | succ fuel ih =>
    intro open_ closed cf g hinv hne
    cases hpop : popMin entryLeB open_ with
    | none =>
      exfalso
      apply hne
      simp only [astarLoop, hpop]
    | some pr =>
      obtain ⟨e, rest⟩ := pr
      have hunfold : astarLoop w h grid endN (fuel + 1) open_ closed cf g =
          (if e.2.2 = endN then reconstruct_path cf e.2.2
           else if closed e.2.2 then astarLoop w h grid endN fuel rest closed cf g
           else
             astarLoop w h grid endN fuel
               (directions.foldl
                 (astarExpand w h grid endN e.2.2 ((mlookup g e.2.2).getD 0))
                 (rest, cf, g)).1
               (fun m => if m = e.2.2 then true else closed m)
               (directions.foldl
                 (astarExpand w h grid endN e.2.2 ((mlookup g e.2.2).getD 0))
                 (rest, cf, g)).2.1
               (directions.foldl
                 (astarExpand w h grid endN e.2.2 ((mlookup g e.2.2).getD 0))
                 (rest, cf, g)).2.2) := by
        simp only [astarLoop, hpop]
      rw [hunfold] at hne ⊢
      have hmem := popMin_mem entryLeB open_ e rest hpop
      obtain ⟨⟨xc, hxc⟩, gv, hgv⟩ := hinv.2.2.2.2.1 e hmem
      have hrestinv : AInv rest cf g startN :=
        AInv_open_subset open_ rest cf g startN hinv
          (popMin_rest_subset entryLeB open_ e rest hpop)
      by_cases hgoal : e.2.2 = endN
      · rw [if_pos hgoal] at hne ⊢
        have hgbound := hinv.2.2.2.2.2.1 e.2.2 gv hgv
        have hlen : cf.length = g.length := hinv.2.2.2.2.2.2
        have hlt : gv < 500 * ((2 * cf.length + 2 : ℕ) : ℤ) := by
          have h2 := hgbound.2
          rw [hlen]
          push_cast
          linarith [Nat.cast_nonneg (α := ℤ) g.length]
        have hchain := reconChain_getLast cf g startN hinv.2.2.1 hinv.2.2.2.1
          (fun n2 gv2 hgv2 => (hinv.2.2.2.2.2.1 n2 gv2 hgv2).1)
          (2 * cf.length + 2) e.2.2 xc gv hxc hgv hlt
        unfold reconstruct_path
        rw [List.head?_reverse, List.getLast?_map, hchain]
        rfl
      · rw [if_neg hgoal] at hne ⊢
        by_cases hclosed : closed e.2.2 = true
        · rw [if_pos hclosed] at hne ⊢
          exact ih rest closed cf g hrestinv hne
        · rw [if_neg hclosed] at hne ⊢
          have hgd : (mlookup g e.2.2).getD 0 = gv := by
            rw [hgv]
            rfl
          rw [hgd] at hne ⊢
          have hfold := astarFold_inv w h grid endN e.2.2 gv startN directions
            directions_ok (rest, cf, g) hrestinv hgv ⟨xc, hxc⟩
          exact ih _ _ _ _ hfold hne

/-- C5: when the start world position falls in a blocked grid cell,
find_path recovers through the nearest-free-cell search: if that search
fails, the path is empty; and any non-empty path starts at the world
centre of the free cell the search returned — never inside a blocked
cell. -/
theorem c5_blocked_start_recovery (w h : ℕ) (grid : ℤ → ℤ → Bool)
    (startPos endPos : ℚ × ℚ)
    (hblocked : grid (clampNode w h (world_to_grid startPos)).1
      (clampNode w h (world_to_grid startPos)).2 = true) :
    (find_nearest_free_cell w h grid (clampNode w h (world_to_grid startPos))
        (clampNode w h (world_to_grid endPos)) = none →
      find_path w h grid startPos endPos = []) ∧
    (find_path w h grid startPos endPos ≠ [] →
      ∃ s1, find_nearest_free_cell w h grid (clampNode w h (world_to_grid startPos))
          (clampNode w h (world_to_grid endPos)) = some s1 ∧
        grid s1.1 s1.2 = false ∧
        (find_path w h grid startPos endPos).head? = some (grid_to_world s1)) := by
  cases hnfc : find_nearest_free_cell w h grid (clampNode w h (world_to_grid startPos))
      (clampNode w h (world_to_grid endPos)) with
  | none =>
    have hfp : find_path w h grid startPos endPos = [] := by
      simp only [find_path, hblocked, if_true, hnfc]
    constructor
    · intro _
      exact hfp
    · intro hne
      exact absurd hfp hne
  | some s1 =>
    constructor
    · intro hcon
      exact Option.noConfusion hcon
    · intro hne
      refine ⟨s1, rfl, find_nearest_free_cell_free w h grid _ _ s1 hnfc, ?_⟩
      cases hend : (if grid (clampNode w h (world_to_grid endPos)).1
            (clampNode w h (world_to_grid endPos)).2 then
          find_nearest_free_cell w h grid (clampNode w h (world_to_grid endPos)) s1
        else some (clampNode w h (world_to_grid endPos))) with
      | none =>
        have hfp : find_path w h grid startPos endPos = [] := by
          simp only [find_path, hblocked, if_true, hnfc, hend]
        exact absurd hfp hne
      | some endNode =>
        have hfp : find_path w h grid startPos endPos =
            (if s1 = endNode then [grid_to_world endNode]
             else
               astarLoop w h grid endNode (8 * w * h + 8)
                 [(mkPrio 0 (heuristic_sq s1 endNode),
                   heuristic_sq s1 endNode, s1)]
                 (fun _ => false)
                 [(s1, none)]
                 [(s1, 0)]) := by
          simp only [find_path, hblocked, if_true, hnfc, hend]
        rw [hfp] at hne ⊢
        by_cases hse : s1 = endNode
        · rw [if_pos hse] at hne ⊢
          rw [hse]
          rfl
        · rw [if_neg hse] at hne ⊢
          apply astarLoop_head w h grid endNode s1 (8 * w * h + 8)
            _ _ _ _ ?_ hne
          refine ⟨by rw [mlookup_cons, if_pos rfl], by rw [mlookup_cons, if_pos rfl],
            ?_, ?_, ?_, ?_, rfl⟩
          · intro n hn
            rw [mlookup_cons] at hn
            split_ifs at hn with hq
            · exact hq
            · exact Option.noConfusion hn
          · intro n p hnp
            rw [mlookup_cons] at hnp
            split_ifs at hnp with hq
            · rw [Option.some_inj] at hnp
              exact Option.noConfusion hnp
            · exact Option.noConfusion hnp
          · intro e he
            rw [List.mem_singleton] at he
            subst he
            exact ⟨⟨none, by rw [mlookup_cons, if_pos rfl]⟩,
              0, by rw [mlookup_cons, if_pos rfl]⟩
          · intro n gvv hgvv
            rw [mlookup_cons] at hgvv
            split_ifs at hgvv with hq
            · rw [Option.some_inj] at hgvv
              subst hgvv
              constructor
              · exact le_refl 0
              · norm_num
            · exact Option.noConfusion hgvv

/-- C5 witness: start (50, 50) falls in the blocked cell (2, 2); the
nearest-free-cell search recovers to the free cell (3, 2) and the
returned path starts at that cell's centre (70, 50). -/
theorem c5_witness :
    (fun x y => decide (x = 2 ∧ y = 2) : ℤ → ℤ → Bool)
      (clampNode 50 40 (world_to_grid ((50 : ℚ), (50 : ℚ)))).1
      (clampNode 50 40 (world_to_grid ((50 : ℚ), (50 : ℚ)))).2 = true ∧
    (∃ s1, find_nearest_free_cell 50 40 (fun x y => decide (x = 2 ∧ y = 2))
        (clampNode 50 40 (world_to_grid ((50 : ℚ), (50 : ℚ))))
        (clampNode 50 40 (world_to_grid ((70 : ℚ), (50 : ℚ)))) = some s1 ∧
      (fun x y => decide (x = 2 ∧ y = 2) : ℤ → ℤ → Bool) s1.1 s1.2 = false ∧
      (find_path 50 40 (fun x y => decide (x = 2 ∧ y = 2))
          ((50 : ℚ), (50 : ℚ)) ((70 : ℚ), (50 : ℚ))).head? =
        some (grid_to_world s1)) := by
  have hw1 : clampNode 50 40 (world_to_grid ((50 : ℚ), (50 : ℚ))) = (2, 2) := by
    norm_num [clampNode, world_to_grid, GRID_SIZE, Prod.ext_iff]
  have hw2 : clampNode 50 40 (world_to_grid ((70 : ℚ), (50 : ℚ))) = (3, 2) := by
    norm_num [clampNode, world_to_grid, GRID_SIZE, Prod.ext_iff]
  have hb : (fun x y => decide (x = 2 ∧ y = 2) : ℤ → ℤ → Bool)
      (clampNode 50 40 (world_to_grid ((50 : ℚ), (50 : ℚ)))).1
      (clampNode 50 40 (world_to_grid ((50 : ℚ), (50 : ℚ)))).2 = true := by
    rw [hw1]
    decide
  refine ⟨hb, (c5_blocked_start_recovery 50 40 (fun x y => decide (x = 2 ∧ y = 2))
    ((50 : ℚ), (50 : ℚ)) ((70 : ℚ), (50 : ℚ)) hb).2 ?_⟩
  have hfp : find_path 50 40 (fun x y => decide (x = 2 ∧ y = 2))
      ((50 : ℚ), (50 : ℚ)) ((70 : ℚ), (50 : ℚ)) = [grid_to_world (3, 2)] := by
    simp only [find_path]
    rw [hw1, hw2]
    rfl
  rw [hfp]
  simp

end CarBots
